import Mathlib

/-!
# chowntree: directory walker, mutator and owner parsing

A shallow embedding of `src/chowntree.c` (Linux build: `readdir` supplies a
`d_type` hint, `uid_t`, `gid_t` and `unsigned` are 32 bits wide, `nlink_t`
and `dev_t` are 64 bits wide).

* A directory tree is a value of type `Node`: what `readdir`, `lstat` and
  `opendir` answer for every entry.
* `walk_dir` and `handle_dirent` are total functions on such a tree that
  return the updated process-wide variables and the list of externally
  visible calls (`Event`) in program order.
* Helpers that live in `commonlib.h` (`dirlist_add_dir`,
  `username_to_uid_or_exit`, `groupname_to_gid_or_exit`) are not part of
  `chowntree.c`; a call of `dirlist_add_dir` is recorded as an event and the
  two resolvers are parameters.
* Left out: the messages written to stderr when the environment variable
  `DEBUG` is set, the release of memory, and the way the entries are read
  (`readdir` or, with `-X`, `readdir_extreme`): the walker sees the same
  sequence of entries either way.
-/

namespace Chowntree

/-! ## Constants -/

/-- The number of values of a 32-bit `unsigned` / `uid_t` / `gid_t`. -/
def UINT_RANGE : Nat := 4294967296

/-- The number of values of an `unsigned char`. -/
def UCHAR_RANGE : Nat := 256

/-- Conversion of a C `int` to `unsigned` (also `uid_t`, `gid_t`). -/
def to_unsigned (i : Int) : Nat := (i % 4294967296).toNat

/-- Conversion of a C `int` to `unsigned char`. -/
def to_uchar (i : Int) : Nat := (i % 256).toNat

/-- The macro `INLINE_PROCESSING_THRESHOLD` (2). -/
def INLINE_PROCESSING_THRESHOLD : Nat := 2

/-- The macro `MAX_THREADS` (512). -/
def MAX_THREADS : Nat := 512

/-- The macro `DIRTY_CONSTANT`, defined as `~0`: the `int` whose bits are all ones. -/
def DIRTY_CONSTANT : Int := -1

def FILETYPE_REGFILE : Nat := 1
def FILETYPE_DIR : Nat := 2

def DT_UNKNOWN : Nat := 0
def DT_FIFO : Nat := 1
def DT_CHR : Nat := 2
def DT_DIR : Nat := 4
def DT_BLK : Nat := 6
def DT_REG : Nat := 8
def DT_LNK : Nat := 10
def DT_SOCK : Nat := 12

def S_IFMT : Nat := 0o170000
def S_IFIFO : Nat := 0o010000
def S_IFCHR : Nat := 0o020000
def S_IFDIR : Nat := 0o040000
def S_IFBLK : Nat := 0o060000
def S_IFREG : Nat := 0o100000
def S_IFLNK : Nat := 0o120000
def S_IFSOCK : Nat := 0o140000

def EACCES : Nat := 13
def ENOENT : Nat := 2

/-- The value `-1` stored in a `uid_t` or `gid_t`: the "leave unchanged"
sentinel of `lchown`, and the initial value of `st.st_uid`, `st.st_gid`. -/
def ID_UNCHANGED : Nat := to_unsigned (-1)

/-! ## Data model -/

/-- The fields of `struct stat` that the program reads. -/
structure Stat where
  st_dev : Nat
  st_mode : Nat
  st_nlink : Nat
  st_uid : Nat
  st_gid : Nat
  st_ino : Nat
deriving DecidableEq, Repr

/-- What `lstat(path, &st)` does: fill `st` and return 0, or return non-zero
with `errno` set and leave `st` as it was.  The local `st` of
`handle_dirent` is not initialised apart from three fields, so on failure
its other fields hold whatever the stack held (`stale`). -/
inductive LstatResult where
  | ok (st : Stat)
  | fail (errno : Nat) (stale : Stat)
deriving DecidableEq, Repr

/-- One entry returned by `readdir`, with the answers of the system calls
made on its path: `d_name` and `d_type` of the `struct dirent`, the result
of `lstat`, the result of `opendir` (`none` on success, `some errno` on
failure) and the entries that `readdir` then returns. -/
inductive Node where
  | mk (d_name : String) (d_type : Nat) (lstat : LstatResult)
      (opendir : Option Nat) (entries : List Node) : Node

/-- The `struct dirlist` without the queue links `next`, `prev` and without
`st_ino`, which only the queue code reads.  The fields `depth` and `inlined`
are `unsigned`: the code only ever adds 1 to them, and that addition wraps
at 2^32 (`incr`). -/
structure Dirlist where
  dirpath : String
  depth : Nat
  inlined : Nat
  filecnt : Nat
  st_nlink : Nat
  st_dev : Nat
  st_uid : Nat
  st_gid : Nat
deriving DecidableEq, Repr

/-- The four counters that `do_chown` updates (each an `unsigned`). -/
structure Counters where
  entries_chowned : Nat
  file_no_access : Nat
  file_not_found : Nat
  file_any_other_error : Nat
deriving DecidableEq, Repr

/-- The process-wide variables that the walker updates. -/
structure Globals where
  simulate_posix_compliance : Bool
  statcount : Nat
  statcount_unexp : Nat
  counters : Counters
deriving DecidableEq, Repr

/-- The process-wide variables set by option parsing in `main` and only
read by the walker.  `excluderecomp` tells whether the array of compiled
expressions is non-NULL (option `-e`). -/
structure Config where
  xdev : Bool
  maxdepth : Nat
  filetypemask : Nat
  excludelist : List String
  excluderecomp : Bool
  dryrun : Bool
  inline_processing_threshold : Nat
  new_uid : Nat
  new_gid : Nat

/-- Library and system calls whose answer the program cannot compute:
`lchown(path, owner, group)` (`none` on success, `some errno` on failure)
and `regexec` of the expression compiled from a pattern on a name. -/
structure Sys where
  lchown : String → Nat → Nat → Option Nat
  regexec : String → String → Bool

/-- The externally visible calls, in program order. -/
inductive Event where
  | lstat (path : String)
  | lchown (path : String) (owner group : Nat)
  | puts (path : String)
  | perror (msg : String)
  | walk_dir (task : Dirlist)
  | dirlist_add_dir (path : String) (depth : Nat) (st : Stat)
deriving DecidableEq, Repr

/-- Result of `handle_dirent`: the process-wide variables, the task of the
directory being walked (its `inlined` field is updated) and the calls made. -/
structure Out where
  g : Globals
  curdir : Dirlist
  events : List Event
deriving DecidableEq, Repr

/-! ## The mutator -/

/-- The increment `x++` of an `unsigned`. -/
def incr (x : Nat) : Nat := (x + 1) % UINT_RANGE

/-- The function `do_chown`: one `lchown` call and the update of one counter. -/
def do_chown (sys : Sys) (path : String) (new_owner new_group : Nat)
    (c : Counters) : Counters × List Event :=
  match sys.lchown path new_owner new_group with
  | some errno =>
    let c1 :=
      if errno = EACCES then { c with file_no_access := incr c.file_no_access }
      else if errno = ENOENT then { c with file_not_found := incr c.file_not_found }
      else { c with file_any_other_error := incr c.file_any_other_error }
    (c1, [Event.lchown path new_owner new_group, Event.perror "chown()"])
  | none =>
    ({ c with entries_chowned := incr c.entries_chowned },
      [Event.lchown path new_owner new_group])

/-! ## The walker -/

/-- The path built at the start of `handle_dirent`: a "/" is added after the
parent path unless the parent path is exactly "/". -/
def child_path (dirpath d_name : String) : String :=
  if dirpath = "/" then dirpath ++ d_name else dirpath ++ "/" ++ d_name

/-- The local `st` after its three initialisations. -/
def st_init (stale : Stat) : Stat :=
  { stale with st_dev := 0, st_uid := to_unsigned (-1), st_gid := to_unsigned (-1) }

/-- A value for the fields of `st` that are never read. -/
def stale_unread : Stat := ⟨0, 0, 0, 0, 0, 0⟩

/-- The `switch (st.st_mode & S_IFMT)` that replaces a `DT_UNKNOWN` hint. -/
def d_type_of_mode (st_mode d_type : Nat) : Nat :=
  let m := st_mode &&& S_IFMT
  if m = S_IFREG then DT_REG
  else if m = S_IFDIR then DT_DIR
  else if m = S_IFBLK then DT_BLK
  else if m = S_IFCHR then DT_CHR
  else if m = S_IFIFO then DT_FIFO
  else if m = S_IFLNK then DT_LNK
  else if m = S_IFSOCK then DT_SOCK
  else d_type

/-- Result of the part of `handle_dirent` that may call `lstat`. -/
structure StatPhase where
  g : Globals
  st : Stat
  d_type : Nat
  events : List Event
deriving DecidableEq, Repr

/-- The local `st` after `lstat(path, &st)`. -/
def st_after_lstat : LstatResult → Stat
  | .ok s => s
  | .fail _ stale => st_init stale

/-- The calls made by the `lstat` step: the call itself, and `perror` when
it failed with `EACCES`. -/
def lstat_events (path : String) : LstatResult → List Event
  | .ok _ => [Event.lstat path]
  | .fail errno _ =>
    if errno = EACCES then [Event.lstat path, Event.perror path] else [Event.lstat path]

/-- Lines 380-437 of `handle_dirent`: `lstat` when the hint is `DT_DIR` or
`DT_UNKNOWN`, the two lstat counters, and the replacement of the hint. -/
def stat_phase (g : Globals) (path : String) (d_type : Nat) (ls : LstatResult) :
    StatPhase :=
  if d_type = DT_DIR ∨ d_type = DT_UNKNOWN then
    let st := st_after_lstat ls
    if d_type = DT_UNKNOWN then
      { g := { g with statcount_unexp := incr g.statcount_unexp },
        st := st, d_type := d_type_of_mode st.st_mode d_type,
        events := lstat_events path ls }
    else
      { g := { g with statcount := incr g.statcount },
        st := st, d_type := d_type, events := lstat_events path ls }
  else
    { g := g, st := st_init stale_unread, d_type := d_type, events := [] }

/-- Lines 439-444: the value of `dive_into_subdir`. -/
def dive_into_subdir (cfg : Config) (curdir : Dirlist) (d_type : Nat) (st : Stat) :
    Bool :=
  if d_type = DT_DIR then
    if cfg.xdev ∧ curdir.st_dev ≠ st.st_dev then false else true
  else false

/-- Lines 478-491: whether the loop over the exclude list returns. -/
def excluded (sys : Sys) (cfg : Config) (d_name : String) : Bool :=
  cfg.excludelist.any fun pat =>
    if cfg.excluderecomp then sys.regexec pat d_name else decide (pat = d_name)

/-- The test `! filetypemask || (filetypemask & bit)`. -/
def admits (filetypemask bit : Nat) : Bool :=
  decide (filetypemask = 0) || decide (filetypemask &&& bit ≠ 0)

/-- The `puts` of a subdirectory that is descended into (lines 493-495). -/
def dir_print (cfg : Config) (path : String) : List Event :=
  if cfg.dryrun ∧ admits cfg.filetypemask FILETYPE_DIR then [Event.puts path] else []

/-- Lines 497-499: whether the subdirectory is processed inline. -/
def inline_cond (cfg : Config) (g : Globals) (curdir : Dirlist) : Bool :=
  decide (cfg.inline_processing_threshold ≠ 0) &&
    (decide (curdir.st_nlink < cfg.inline_processing_threshold + 2) ||
      (g.simulate_posix_compliance &&
        decide (curdir.inlined < cfg.inline_processing_threshold)))

/-- Lines 503-513: the task built on the stack for an inline walk. -/
def subdirentry (g : Globals) (curdir : Dirlist) (path : String) (st : Stat) : Dirlist :=
  { dirpath := path
    depth := incr curdir.depth
    inlined := 0
    filecnt := 0
    st_nlink :=
      if g.simulate_posix_compliance then to_unsigned DIRTY_CONSTANT
      else st.st_nlink % UINT_RANGE
    st_dev := st.st_dev
    st_uid := st.st_uid
    st_gid := st.st_gid }

/-- Lines 520-527: an entry that is not descended into. -/
def handle_leaf (sys : Sys) (cfg : Config) (g : Globals) (path : String) (st : Stat) :
    Globals × List Event :=
  if admits cfg.filetypemask FILETYPE_REGFILE then
    if cfg.dryrun then (g, [Event.puts path])
    else if (0 ≤ st.st_uid ∧ st.st_uid ≠ cfg.new_uid) ∨
        (0 ≤ st.st_gid ∧ st.st_gid ≠ cfg.new_gid) then
      let r := do_chown sys path cfg.new_uid cfg.new_gid g.counters
      ({ g with counters := r.1 }, r.2)
    else (g, [])
  else (g, [])

/-- Lines 297-302 of `walk_dir`: the link-count check. -/
def nlink_check (g : Globals) (curdir : Dirlist) : Globals × Dirlist :=
  if curdir.st_nlink < 2 ∧ g.simulate_posix_compliance = false then
    ({ g with simulate_posix_compliance := true },
      { curdir with st_nlink := to_unsigned DIRTY_CONSTANT })
  else (g, curdir)

/-- Lines 340-345 of `walk_dir`: the change of owner of the directory
itself, after its entries. -/
def chown_self (sys : Sys) (cfg : Config) (g : Globals) (curdir : Dirlist) :
    Globals × List Event :=
  if cfg.dryrun = false then
    if admits cfg.filetypemask FILETYPE_DIR then
      if (0 ≤ cfg.new_uid ∧ cfg.new_uid ≠ curdir.st_uid) ∨
          (0 ≤ cfg.new_gid ∧ cfg.new_gid ≠ curdir.st_gid) then
        let r := do_chown sys curdir.dirpath cfg.new_uid cfg.new_gid g.counters
        ({ g with counters := r.1 }, r.2)
      else (g, [])
    else (g, [])
  else (g, [])

/-- The test of `walk_dir` that skips the entries "." and "..". -/
def is_dot_or_dotdot (d_name : String) : Bool :=
  match d_name.data with
  | [c0] => decide (c0 = '.')
  | [c0, c1] => decide (c0 = '.') && decide (c1 = '.')
  | _ => false

/-- The body of `walk_dir` around its `readdir` loop: `opendir` (on failure
`perror` and return), the link-count check, the loop (`loop`, given the
variables and the task as they are when it starts), and the change of owner
of the directory itself. -/
def walk_dir_body (sys : Sys) (cfg : Config) (g : Globals) (curdir : Dirlist)
    (opendir : Option Nat) (loop : Globals → Dirlist → Out) : Globals × List Event :=
  match opendir with
  | some _ => (g, [Event.perror curdir.dirpath])
  | none =>
    let c := nlink_check g curdir
    let r := loop c.1 c.2
    let s := chown_self sys cfg r.g r.curdir
    (s.1, r.events ++ s.2)

/-- The body of `handle_dirent` for the entry (`d_name`, `d_type`) of the
directory `curdir`; `ls` and `opendir` are the answers of `lstat` and
`opendir` on its path, and `loop` is the `readdir` loop of the inline
`walk_dir` call on it. -/
def handle_dirent_body (sys : Sys) (cfg : Config) (g : Globals) (curdir : Dirlist)
    (d_name : String) (d_type : Nat) (ls : LstatResult) (opendir : Option Nat)
    (loop : Globals → Dirlist → Out) : Out :=
  let path := child_path curdir.dirpath d_name
  let sp := stat_phase g path d_type ls
  if dive_into_subdir cfg curdir sp.d_type sp.st then
    if cfg.maxdepth ≠ 0 ∧ curdir.depth ≥ cfg.maxdepth then
      { g := sp.g, curdir := curdir, events := sp.events }
    else if cfg.excludelist.length > 0 ∧ excluded sys cfg d_name then
      { g := sp.g, curdir := curdir, events := sp.events }
    else
      let pr := dir_print cfg path
      if inline_cond cfg sp.g curdir then
        let curdir1 := { curdir with inlined := incr curdir.inlined }
        let sub := subdirentry sp.g curdir path sp.st
        let w := walk_dir_body sys cfg sp.g sub opendir loop
        { g := w.1, curdir := curdir1,
          events := sp.events ++ pr ++ [Event.walk_dir sub] ++ w.2 }
      else
        { g := sp.g, curdir := curdir,
          events := sp.events ++ pr ++
            [Event.dirlist_add_dir path (incr curdir.depth) sp.st] }
  else
    let l := handle_leaf sys cfg sp.g path sp.st
    { g := l.1, curdir := curdir, events := sp.events ++ l.2 }

mutual
/-- The `while` loop of `walk_dir` over the entries that `readdir` returns. -/
def walk_entries (sys : Sys) (cfg : Config) (g : Globals) (curdir : Dirlist) :
    List Node → Out
  | [] => { g := g, curdir := curdir, events := [] }
  | e :: rest =>
    match e with
    | .mk d_name d_type ls od ents =>
      if is_dot_or_dotdot d_name then walk_entries sys cfg g curdir rest
      else
        let r := handle_dirent sys cfg g curdir (.mk d_name d_type ls od ents)
        let r2 := walk_entries sys cfg r.g r.curdir rest
        { g := r2.g, curdir := r2.curdir, events := r.events ++ r2.events }
/-- The function `handle_dirent` for one entry of the directory `curdir`. -/
def handle_dirent (sys : Sys) (cfg : Config) (g : Globals) (curdir : Dirlist) :
    Node → Out
  | .mk d_name d_type ls od ents =>
    handle_dirent_body sys cfg g curdir d_name d_type ls od
      (fun g1 c1 => walk_entries sys cfg g1 c1 ents)
end

/-- The function `walk_dir` on the task `curdir`, whose directory answers
`opendir` and `readdir` as the node says. -/
def walk_dir (sys : Sys) (cfg : Config) (g : Globals) (curdir : Dirlist) :
    Node → Globals × List Event
  | .mk _ _ _ od ents =>
    walk_dir_body sys cfg g curdir od (fun g1 c1 => walk_entries sys cfg g1 c1 ents)

/-! ## Option handling in `main` -/

/-- The value of `inline_processing_threshold` (an `unsigned char`) when the
walk starts: the initial value or `atoi` of the argument of `-I`, replaced
by `DIRTY_CONSTANT` when `threads == 1`. -/
def main_inline_processing_threshold (threads : Nat) (opt_I : Option Int) : Nat :=
  let t0 :=
    match opt_I with
    | none => INLINE_PROCESSING_THRESHOLD
    | some v => to_uchar v
  if threads = 1 then to_uchar DIRTY_CONSTANT else t0

/-- The C library test `isdigit` (C locale). -/
def isdigit (c : Char) : Bool := decide ('0' ≤ c) && decide (c ≤ '9')

/-- The test `isdigit(*ugptr)` on the first character of a string (false on
the terminating NUL of an empty string). -/
def isdigit_first : List Char → Bool
  | [] => false
  | c :: _ => isdigit c

/-- The value of the decimal digits at the start of a string, `acc` being
the value of the digits read so far. -/
def digits_value : Nat → List Char → Nat
  | acc, [] => acc
  | acc, c :: cs =>
    if isdigit c then digits_value (acc * 10 + (c.toNat - '0'.toNat)) cs
    else acc

/-- The C library call `strtoul(s, NULL, 10)` on a string that starts with a
digit: the value of the leading digits, `ULONG_MAX` when that does not fit
in 64 bits. -/
def strtoul (s : List Char) : Nat := min (digits_value 0 s) (2 ^ 64 - 1)

/-- The call `strchr(s, ':')` followed by `*separator = 0`: the text before
the first colon and the text after it, `none` when there is no colon. -/
def split_colon : List Char → Option (List Char × List Char)
  | [] => none
  | c :: cs =>
    if c = ':' then some ([], cs)
    else
      match split_colon cs with
      | none => none
      | some (a, b) => some (c :: a, b)

/-- A call of one of the two resolvers of `commonlib.h`. -/
inductive Lookup where
  | user (name : String)
  | group (name : String)
deriving DecidableEq, Repr

/-- Result of the owner parsing of `main`: the resolver calls made, and
`new_uid`, `new_gid` unless a resolver ended the program. -/
structure Owner where
  lookups : List Lookup
  ids : Option (Nat × Nat)
deriving DecidableEq, Repr

/-- The expression `isdigit(*ugptr) ? strtoul(ugptr, NULL, 10) :
groupname_to_gid_or_exit(ugptr)` assigned to `new_gid`, after `new_uid` got
the value `uid`. -/
def parse_group (groupname_to_gid_or_exit : String → Option Nat) (pre : List Lookup)
    (uid : Nat) (grp : List Char) : Owner :=
  if isdigit_first grp then
    { lookups := pre, ids := some (uid, strtoul grp % UINT_RANGE) }
  else
    match groupname_to_gid_or_exit (String.mk grp) with
    | none => { lookups := pre ++ [Lookup.group (String.mk grp)], ids := none }
    | some gid =>
      { lookups := pre ++ [Lookup.group (String.mk grp)],
        ids := some (uid, gid % UINT_RANGE) }

/-- Lines 779-822 of `main`: the parsing of the argument `[user][:group]`.
The two resolvers return `none` when they end the program. -/
def parse_owner (username_to_uid_or_exit groupname_to_gid_or_exit : String → Option Nat)
    (arg : String) : Owner :=
  let ugptr := arg.data
  if isdigit_first ugptr then
    match split_colon ugptr with
    | some (usr, grp) =>
      parse_group groupname_to_gid_or_exit [] (strtoul usr % UINT_RANGE) grp
    | none => { lookups := [], ids := some (strtoul ugptr % UINT_RANGE, to_unsigned (-1)) }
  else
    match ugptr with
    | ':' :: grp => parse_group groupname_to_gid_or_exit [] (to_unsigned (-1)) grp
    | _ =>
      match split_colon ugptr with
      | some (usr, grp) =>
        match username_to_uid_or_exit (String.mk usr) with
        | none => { lookups := [Lookup.user (String.mk usr)], ids := none }
        | some uid =>
          parse_group groupname_to_gid_or_exit [Lookup.user (String.mk usr)]
            (uid % UINT_RANGE) grp
      | none =>
        if isdigit_first ugptr then
          { lookups := [], ids := some (strtoul ugptr % UINT_RANGE, to_unsigned (-1)) }
        else
          match username_to_uid_or_exit arg with
          | none => { lookups := [Lookup.user arg], ids := none }
          | some uid =>
            { lookups := [Lookup.user arg], ids := some (uid % UINT_RANGE, to_unsigned (-1)) }

/-! ## Sequences of mutator calls -/

/-- The sum of the four counters of `do_chown`. -/
def counter_sum (c : Counters) : Nat :=
  c.entries_chowned + c.file_no_access + c.file_not_found + c.file_any_other_error

/-- Sequential `do_chown` calls, one for each (path, owner, group). -/
def do_chown_seq (sys : Sys) : List (String × Nat × Nat) → Counters → Counters
  | [], c => c
  | x :: rest, c => do_chown_seq sys rest (do_chown sys x.1 x.2.1 x.2.2 c).1

/-! ## Concrete trees and settings -/

/-- Every `lchown` succeeds; no regular expression matches. -/
def sys_ok : Sys := { lchown := fun _ _ _ => none, regexec := fun _ _ => false }

/-- The process-wide variables at program start. -/
def globals_zero : Globals :=
  { simulate_posix_compliance := false, statcount := 0, statcount_unexp := 0,
    counters := ⟨0, 0, 0, 0⟩ }

/-- The settings after `chowntree uid:gid ...` with no option, more than
one thread. -/
def cfg_plain (uid gid : Nat) : Config :=
  { xdev := false, maxdepth := 0, filetypemask := 0, excludelist := [],
    excluderecomp := false, dryrun := false,
    inline_processing_threshold := INLINE_PROCESSING_THRESHOLD,
    new_uid := uid, new_gid := gid }

/-- The `lstat` record of a directory. -/
def stat_dir (dev nlink uid gid : Nat) : Stat :=
  { st_dev := dev, st_mode := S_IFDIR ||| 0o755, st_nlink := nlink,
    st_uid := uid, st_gid := gid, st_ino := 0 }

/-- The `lstat` record of a regular file. -/
def stat_reg (dev uid gid : Nat) : Stat :=
  { st_dev := dev, st_mode := S_IFREG ||| 0o644, st_nlink := 1,
    st_uid := uid, st_gid := gid, st_ino := 0 }

/-- The task of a starting directory, filled from its `lstat` record. -/
def task_start (path : String) (st : Stat) : Dirlist :=
  { dirpath := path, depth := 0, inlined := 0, filecnt := 0,
    st_nlink := st.st_nlink % UINT_RANGE, st_dev := st.st_dev,
    st_uid := st.st_uid, st_gid := st.st_gid }

/-- A directory entry that is a subdirectory with a `DT_DIR` hint. -/
def node_dir (name : String) (st : Stat) (entries : List Node) : Node :=
  .mk name DT_DIR (.ok st) none entries

/-- A directory entry that is a regular file with a `DT_REG` hint. -/
def node_reg (name : String) (st : Stat) : Node :=
  .mk name DT_REG (.ok st) (some 20) []

/-- The call on `/r` succeeds, the call on `/r/f` fails with `EACCES`, the
call on `/r/g` with `ENOENT`, and the call on `/r/h` with `EPERM` (1). -/
def sys_errors : Sys :=
  { lchown := fun p _ _ =>
      if p = "/r/f" then some EACCES
      else if p = "/r/g" then some ENOENT
      else if p = "/r/h" then some 1
      else none
    regexec := fun _ _ => false }

/-- The directory `/r` (device 1) whose only entry `mnt` is a directory on
device 2 (a mount point), both owned by 0:0. -/
def tree_mount : Node :=
  node_dir "r" (stat_dir 1 3 0 0) [node_dir "mnt" (stat_dir 2 2 0 0) []]

/-- The directory `/r` with the directory `a` that holds the regular file
`f`, all owned by 0:0. -/
def tree_r_a_f : Node :=
  node_dir "r" (stat_dir 1 3 0 0)
    [node_dir "a" (stat_dir 1 2 0 0) [node_reg "f" (stat_reg 1 0 0)]]

/-- The chain of directories `/r/a/b/c`, all owned by 0:0. -/
def tree_r_a_b_c : Node :=
  node_dir "r" (stat_dir 1 3 0 0)
    [node_dir "a" (stat_dir 1 3 0 0)
      [node_dir "b" (stat_dir 1 3 0 0) [node_dir "c" (stat_dir 1 2 0 0) []]]]

/-- The directory `/r` with the empty directories `skip`, `a`, `b`, on a file
system that reports link count 1 for every directory. -/
def tree_btrfs : Node :=
  node_dir "r" (stat_dir 1 1 0 0)
    [node_dir "skip" (stat_dir 1 1 0 0) [], node_dir "a" (stat_dir 1 1 0 0) [],
      node_dir "b" (stat_dir 1 1 0 0) []]

/-- The directory `/r` with link count 4 and its two subdirectories `a`, `b`
(a POSIX-compliant file system). -/
def tree_two_subdirs : Node :=
  node_dir "r" (stat_dir 1 4 0 0)
    [node_dir "a" (stat_dir 1 2 0 0) [], node_dir "b" (stat_dir 1 2 0 0) []]

/-- The directory `/r` with link count 5 and its three subdirectories `a`,
`b`, `c` (a POSIX-compliant file system). -/
def tree_three_subdirs : Node :=
  node_dir "r" (stat_dir 1 5 0 0)
    [node_dir "a" (stat_dir 1 2 0 0) [], node_dir "b" (stat_dir 1 2 0 0) [],
      node_dir "c" (stat_dir 1 2 0 0) []]

/-- The process-wide variables after another directory has set
`simulate_posix_compliance`. -/
def globals_flag_set : Globals :=
  { simulate_posix_compliance := true, statcount := 0, statcount_unexp := 0,
    counters := ⟨0, 0, 0, 0⟩ }

/-- The directory `/r` whose `lstat` record showed link count 2 (no
subdirectory), read when it holds the three subdirectories `a`, `b`, `c`. -/
def tree_stale_nlink : Node :=
  node_dir "r" (stat_dir 1 2 0 0)
    [node_dir "a" (stat_dir 1 2 0 0) [], node_dir "b" (stat_dir 1 2 0 0) [],
      node_dir "c" (stat_dir 1 2 0 0) []]

/-- The entry `gone` with a `DT_DIR` hint on which `lstat` and `opendir`
fail with `ENOENT`; the stack held a link count of 7 and a mode of 0. -/
def node_gone : Node :=
  .mk "gone" DT_DIR (.fail ENOENT ⟨0, 0, 7, 0, 0, 0⟩) (some ENOENT) []

/-- The entry `odd` with a `DT_UNKNOWN` hint on which `lstat` fails with
`ENOENT`; the stack held the mode of a regular file. -/
def node_odd : Node :=
  .mk "odd" DT_UNKNOWN (.fail ENOENT ⟨0, S_IFREG, 1, 0, 0, 0⟩) (some ENOENT) []

/-- An empty directory. -/
def tree_empty : Node := node_dir "r" (stat_dir 1 2 0 0) []

/-! ## Projections of the list of calls -/

/-- The paths passed to `do_chown` (one `lchown` call each). -/
def chown_paths : List Event → List String
  | [] => []
  | Event.lchown p _ _ :: rest => p :: chown_paths rest
  | _ :: rest => chown_paths rest

/-- The paths printed with `puts`. -/
def puts_paths : List Event → List String
  | [] => []
  | Event.puts p :: rest => p :: puts_paths rest
  | _ :: rest => puts_paths rest

/-- Whether a call is a descent: an inline `walk_dir` call or a call of
`dirlist_add_dir`. -/
def is_descent : Event → Bool
  | Event.walk_dir _ => true
  | Event.dirlist_add_dir _ _ _ => true
  | _ => false

/-- The number of `lstat` calls. -/
def lstat_count : List Event → Nat
  | [] => 0
  | Event.lstat _ :: rest => lstat_count rest + 1
  | _ :: rest => lstat_count rest

/-- The first descent among the calls, if any. -/
def first_descent : List Event → Option Event
  | [] => none
  | Event.walk_dir t :: _ => some (Event.walk_dir t)
  | Event.dirlist_add_dir p d st :: _ => some (Event.dirlist_add_dir p d st)
  | _ :: rest => first_descent rest

/-- The name of an entry. -/
def Node.name : Node → String
  | .mk d_name _ _ _ _ => d_name

/-- The entries of a directory. -/
def Node.entries : Node → List Node
  | .mk _ _ _ _ ents => ents

/-- The type of an entry after the `lstat` step of `handle_dirent`: the hint
of `readdir`, or for a `DT_UNKNOWN` hint the type read from `st.st_mode`. -/
def entry_d_type (d_type : Nat) (ls : LstatResult) : Nat :=
  if d_type = DT_UNKNOWN then d_type_of_mode (st_after_lstat ls).st_mode d_type
  else d_type

/-- The number of entries of a directory, other than "." and "..", that
`handle_dirent` takes for directories. -/
def subdir_count : List Node → Nat
  | [] => 0
  | e :: rest =>
    match e with
    | .mk d_name d_type ls _ _ =>
      (if is_dot_or_dotdot d_name = false ∧ entry_d_type d_type ls = DT_DIR then 1 else 0) +
        subdir_count rest

mutual
/-- No entry of the tree below this entry has a name of the list. -/
def below_avoids (names : List String) : Node → Bool
  | .mk _ _ _ _ ents => entries_avoid names ents
/-- No entry of the list, and no entry below one, has a name of the list. -/
def entries_avoid (names : List String) : List Node → Bool
  | [] => true
  | e :: rest =>
    match e with
    | .mk d_name d_type ls od ents =>
      !(names.contains d_name) && below_avoids names (.mk d_name d_type ls od ents) &&
        entries_avoid names rest
end

/-- A name as `readdir` returns it: not empty and without "/". -/
def name_ok (n : String) : Bool :=
  !(n.data.isEmpty) && !(n.data.contains '/')

mutual
/-- In every directory of the tree below this entry the names are as
`readdir` returns them: each passes `name_ok`, and no two are equal. -/
def below_wf : Node → Bool
  | .mk _ _ _ _ ents => entries_wf ents
/-- The entries of one directory, and the trees below them, have names as
`readdir` returns them. -/
def entries_wf : List Node → Bool
  | [] => true
  | e :: rest =>
    match e with
    | .mk d_name d_type ls od ents =>
      name_ok d_name && rest.all (fun e2 => !(e2.name == d_name)) &&
        below_wf (.mk d_name d_type ls od ents) && entries_wf rest
end

/-! ## Relating a dry run to a run that changes owners -/

/-- Two values of the process-wide variables that differ at most in the
counters of `do_chown`. -/
def same_walk (g1 g2 : Globals) : Prop :=
  g1.simulate_posix_compliance = g2.simulate_posix_compliance ∧
    g1.statcount = g2.statcount ∧ g1.statcount_unexp = g2.statcount_unexp

/-- The result `rN` of a part of the walk without `-n` and the result `rD`
of the same part with `-n`, both for the directory task `cur`: the walk
itself is the same, the dry run calls no `do_chown`, and every path is
printed by the dry run at least as often as the other run passes it to
`do_chown`. -/
def dry_rel (cur : Dirlist) (rN rD : Out) : Prop :=
  same_walk rN.g rD.g ∧ rN.curdir = rD.curdir ∧ rN.curdir.dirpath = cur.dirpath ∧
    chown_paths rD.events = [] ∧
    ∀ p, (chown_paths rN.events).count p ≤ (puts_paths rD.events).count p

/-- The `readdir` loops of a run without `-n` and of a dry run are related
by `dry_rel` whenever they start from variables related by `same_walk`. -/
def loop_dry_rel (loopN loopD : Globals → Dirlist → Out) : Prop :=
  ∀ (gN gD : Globals) (cur : Dirlist), same_walk gN gD →
    dry_rel cur (loopN gN cur) (loopD gD cur)

/-! ## Paths below a directory -/

/-- The path `p` is the path `c` or lies below the directory `c`: it is `c`
itself or `c` followed by "/" and more. -/
def at_or_under (c p : String) : Prop :=
  ∃ t : List Char, p.data = c.data ++ t ∧ (t = [] ∨ ∃ t2, t = '/' :: t2)

/-- The paths printed by a `readdir` loop on the task `c` are pairwise
different, and each is the path of an entry of `c` or lies below one. -/
def loop_puts_ok (loop : Globals → Dirlist → Out) : Prop :=
  ∀ (g : Globals) (c : Dirlist),
    (puts_paths (loop g c).events).Nodup ∧
      ∀ p ∈ puts_paths (loop g c).events,
        ∃ n, name_ok n = true ∧ at_or_under (child_path c.dirpath n) p

/-! ## Counting `lstat` calls -/

/-- The sum of the two `lstat` counters. -/
def stat_sum (g : Globals) : Nat := g.statcount + g.statcount_unexp

/-- A part of the walk, started with the variables `g` and ended with `g2`
after the calls `events`, has raised the sum of the two `lstat` counters by
the number of its `lstat` calls, modulo 2^32. -/
def stat_ok (g g2 : Globals) (events : List Event) : Prop :=
  stat_sum g2 % 4294967296 = (stat_sum g + lstat_count events) % 4294967296

/-- Every run of a `readdir` loop satisfies `stat_ok`. -/
def loop_stat_ok (loop : Globals → Dirlist → Out) : Prop :=
  ∀ (g : Globals) (c : Dirlist), stat_ok g (loop g c).g (loop g c).events

/-! ## Basic facts -/

theorem handle_dirent_eq (sys : Sys) (cfg : Config) (g : Globals) (curdir : Dirlist)
    (d_name : String) (d_type : Nat) (ls : LstatResult) (od : Option Nat)
    (ents : List Node) :
    handle_dirent sys cfg g curdir (.mk d_name d_type ls od ents) =
      handle_dirent_body sys cfg g curdir d_name d_type ls od
        (fun g1 c1 => walk_entries sys cfg g1 c1 ents) := by
  rw [handle_dirent]

theorem walk_dir_eq (sys : Sys) (cfg : Config) (g : Globals) (curdir : Dirlist)
    (d_name : String) (d_type : Nat) (ls : LstatResult) (od : Option Nat)
    (ents : List Node) :
    walk_dir sys cfg g curdir (.mk d_name d_type ls od ents) =
      walk_dir_body sys cfg g curdir od
        (fun g1 c1 => walk_entries sys cfg g1 c1 ents) := rfl

theorem incr_le (x : Nat) : incr x ≤ x + 1 := Nat.mod_le _ _

theorem do_chown_sum_mod (sys : Sys) (p : String) (u g : Nat) (c : Counters) :
    counter_sum (do_chown sys p u g c).1 % 4294967296 =
      (counter_sum c + 1) % 4294967296 := by
  unfold do_chown
  split
  · split_ifs <;> simp only [counter_sum, incr, UINT_RANGE] <;> omega
  · simp only [counter_sum, incr, UINT_RANGE]; omega

theorem do_chown_sum_le (sys : Sys) (p : String) (u g : Nat) (c : Counters) :
    counter_sum (do_chown sys p u g c).1 ≤ counter_sum c + 1 := by
  unfold do_chown
  split
  · split_ifs <;> simp only [counter_sum, incr, UINT_RANGE] <;> omega
  · simp only [counter_sum, incr, UINT_RANGE]; omega

theorem do_chown_seq_sum (sys : Sys) (calls : List (String × Nat × Nat)) :
    ∀ c : Counters,
      counter_sum (do_chown_seq sys calls c) % 4294967296 =
          (counter_sum c + calls.length) % 4294967296 ∧
        counter_sum (do_chown_seq sys calls c) ≤ counter_sum c + calls.length := by
  induction calls with
  | nil => intro c; simp [do_chown_seq]
  | cons x rest ih =>
    intro c
    have h1 := do_chown_sum_mod sys x.1 x.2.1 x.2.2 c
    have h2 := do_chown_sum_le sys x.1 x.2.1 x.2.2 c
    have h3 := ih (do_chown sys x.1 x.2.1 x.2.2 c).1
    simp only [do_chown_seq, List.length_cons]
    omega

/-- When every `lchown` succeeds, `n` calls leave `entries_chowned` at its
old value plus `n`, modulo 2^32, and the three error counters as they were. -/
theorem do_chown_seq_replicate (x : String × Nat × Nat) (n : Nat) :
    ∀ c : Counters, c.entries_chowned < 4294967296 →
      do_chown_seq sys_ok (List.replicate n x) c =
        { c with entries_chowned := (c.entries_chowned + n) % 4294967296 } := by
  induction n with
  | zero =>
    intro c hc
    simp [do_chown_seq, Nat.mod_eq_of_lt hc]
  | succ k ih =>
    intro c hc
    rw [List.replicate_succ, do_chown_seq, ih]
    · simp only [do_chown, sys_ok, incr, UINT_RANGE]
      congr 1
      omega
    · simp only [do_chown, sys_ok, incr, UINT_RANGE]
      omega

theorem do_chown_mem (sys : Sys) (p : String) (u g : Nat) (c : Counters) :
    Event.lchown p u g ∈ (do_chown sys p u g c).2 := by
  unfold do_chown
  split <;> simp

theorem stat_phase_ok (g : Globals) (path : String) (d_type : Nat) (s : Stat)
    (h : d_type = DT_DIR ∨ d_type = DT_UNKNOWN) :
    (stat_phase g path d_type (.ok s)).st = s ∧
      (stat_phase g path d_type (.ok s)).events = [Event.lstat path] := by
  unfold stat_phase
  rw [if_pos h]
  split <;> simp [st_after_lstat, lstat_events]

theorem stat_phase_known (g : Globals) (path : String) (d_type : Nat) (ls : LstatResult)
    (h1 : d_type ≠ DT_DIR) (h2 : d_type ≠ DT_UNKNOWN) :
    stat_phase g path d_type ls =
      { g := g, st := st_init stale_unread, d_type := d_type, events := [] } := by
  unfold stat_phase
  rw [if_neg (by tauto)]

theorem dive_xdev_false (cfg : Config) (curdir : Dirlist) (d_type : Nat) (st : Stat)
    (hx : cfg.xdev = true) (hd : st.st_dev ≠ curdir.st_dev) :
    dive_into_subdir cfg curdir d_type st = false := by
  unfold dive_into_subdir
  split
  · rw [if_pos ⟨hx, fun h => hd h.symm⟩]
  · rfl

/-- When `dive_into_subdir` is false, `handle_dirent` is the `lstat` step
followed by the handling of a leaf. -/
theorem handle_dirent_body_leaf (sys : Sys) (cfg : Config) (g : Globals)
    (curdir : Dirlist) (d_name : String) (d_type : Nat) (ls : LstatResult)
    (od : Option Nat) (loop : Globals → Dirlist → Out)
    (h : dive_into_subdir cfg curdir
        (stat_phase g (child_path curdir.dirpath d_name) d_type ls).d_type
        (stat_phase g (child_path curdir.dirpath d_name) d_type ls).st = false) :
    handle_dirent_body sys cfg g curdir d_name d_type ls od loop =
      { g := (handle_leaf sys cfg
                (stat_phase g (child_path curdir.dirpath d_name) d_type ls).g
                (child_path curdir.dirpath d_name)
                (stat_phase g (child_path curdir.dirpath d_name) d_type ls).st).1,
        curdir := curdir,
        events := (stat_phase g (child_path curdir.dirpath d_name) d_type ls).events ++
          (handle_leaf sys cfg
                (stat_phase g (child_path curdir.dirpath d_name) d_type ls).g
                (child_path curdir.dirpath d_name)
                (stat_phase g (child_path curdir.dirpath d_name) d_type ls).st).2 } := by
  unfold handle_dirent_body
  simp only [h]
  rfl

/-- A subdirectory beyond `maxdepth`: only the `lstat` step. -/
theorem handle_dirent_body_depth (sys : Sys) (cfg : Config) (g : Globals)
    (curdir : Dirlist) (d_name : String) (d_type : Nat) (ls : LstatResult)
    (od : Option Nat) (loop : Globals → Dirlist → Out)
    (h : dive_into_subdir cfg curdir
        (stat_phase g (child_path curdir.dirpath d_name) d_type ls).d_type
        (stat_phase g (child_path curdir.dirpath d_name) d_type ls).st = true)
    (hm : cfg.maxdepth ≠ 0 ∧ curdir.depth ≥ cfg.maxdepth) :
    handle_dirent_body sys cfg g curdir d_name d_type ls od loop =
      { g := (stat_phase g (child_path curdir.dirpath d_name) d_type ls).g,
        curdir := curdir,
        events := (stat_phase g (child_path curdir.dirpath d_name) d_type ls).events } := by
  unfold handle_dirent_body
  simp only [h, if_true]
  rw [if_pos hm]

/-- An excluded subdirectory: only the `lstat` step. -/
theorem handle_dirent_body_excluded (sys : Sys) (cfg : Config) (g : Globals)
    (curdir : Dirlist) (d_name : String) (d_type : Nat) (ls : LstatResult)
    (od : Option Nat) (loop : Globals → Dirlist → Out)
    (h : dive_into_subdir cfg curdir
        (stat_phase g (child_path curdir.dirpath d_name) d_type ls).d_type
        (stat_phase g (child_path curdir.dirpath d_name) d_type ls).st = true)
    (hx : cfg.excludelist.length > 0 ∧ excluded sys cfg d_name = true) :
    handle_dirent_body sys cfg g curdir d_name d_type ls od loop =
      { g := (stat_phase g (child_path curdir.dirpath d_name) d_type ls).g,
        curdir := curdir,
        events := (stat_phase g (child_path curdir.dirpath d_name) d_type ls).events } := by
  unfold handle_dirent_body
  simp only [h, if_true]
  rw [if_pos hx]
  split_ifs <;> rfl

/-- A subdirectory that is processed inline. -/
theorem handle_dirent_body_inline (sys : Sys) (cfg : Config) (g : Globals)
    (curdir : Dirlist) (d_name : String) (d_type : Nat) (ls : LstatResult)
    (od : Option Nat) (loop : Globals → Dirlist → Out)
    (h : dive_into_subdir cfg curdir
        (stat_phase g (child_path curdir.dirpath d_name) d_type ls).d_type
        (stat_phase g (child_path curdir.dirpath d_name) d_type ls).st = true)
    (hm : ¬ (cfg.maxdepth ≠ 0 ∧ curdir.depth ≥ cfg.maxdepth))
    (hx : ¬ (cfg.excludelist.length > 0 ∧ excluded sys cfg d_name = true))
    (hi : inline_cond cfg (stat_phase g (child_path curdir.dirpath d_name) d_type ls).g
        curdir = true) :
    handle_dirent_body sys cfg g curdir d_name d_type ls od loop =
      { g := (walk_dir_body sys cfg
                (stat_phase g (child_path curdir.dirpath d_name) d_type ls).g
                (subdirentry (stat_phase g (child_path curdir.dirpath d_name) d_type ls).g
                  curdir (child_path curdir.dirpath d_name)
                  (stat_phase g (child_path curdir.dirpath d_name) d_type ls).st)
                od loop).1,
        curdir := { curdir with inlined := incr curdir.inlined },
        events := (stat_phase g (child_path curdir.dirpath d_name) d_type ls).events ++
          dir_print cfg (child_path curdir.dirpath d_name) ++
          [Event.walk_dir
            (subdirentry (stat_phase g (child_path curdir.dirpath d_name) d_type ls).g
              curdir (child_path curdir.dirpath d_name)
              (stat_phase g (child_path curdir.dirpath d_name) d_type ls).st)] ++
          (walk_dir_body sys cfg
                (stat_phase g (child_path curdir.dirpath d_name) d_type ls).g
                (subdirentry (stat_phase g (child_path curdir.dirpath d_name) d_type ls).g
                  curdir (child_path curdir.dirpath d_name)
                  (stat_phase g (child_path curdir.dirpath d_name) d_type ls).st)
                od loop).2 } := by
  unfold handle_dirent_body
  simp only [h, if_true]
  rw [if_neg hm, if_neg hx]
  simp only [hi, if_true]

/-- A subdirectory that is handed to `dirlist_add_dir`. -/
theorem handle_dirent_body_enqueue (sys : Sys) (cfg : Config) (g : Globals)
    (curdir : Dirlist) (d_name : String) (d_type : Nat) (ls : LstatResult)
    (od : Option Nat) (loop : Globals → Dirlist → Out)
    (h : dive_into_subdir cfg curdir
        (stat_phase g (child_path curdir.dirpath d_name) d_type ls).d_type
        (stat_phase g (child_path curdir.dirpath d_name) d_type ls).st = true)
    (hm : ¬ (cfg.maxdepth ≠ 0 ∧ curdir.depth ≥ cfg.maxdepth))
    (hx : ¬ (cfg.excludelist.length > 0 ∧ excluded sys cfg d_name = true))
    (hi : inline_cond cfg (stat_phase g (child_path curdir.dirpath d_name) d_type ls).g
        curdir = false) :
    handle_dirent_body sys cfg g curdir d_name d_type ls od loop =
      { g := (stat_phase g (child_path curdir.dirpath d_name) d_type ls).g,
        curdir := curdir,
        events := (stat_phase g (child_path curdir.dirpath d_name) d_type ls).events ++
          dir_print cfg (child_path curdir.dirpath d_name) ++
          [Event.dirlist_add_dir (child_path curdir.dirpath d_name) (incr curdir.depth)
            (stat_phase g (child_path curdir.dirpath d_name) d_type ls).st] } := by
  unfold handle_dirent_body
  simp only [h, if_true]
  rw [if_neg hm, if_neg hx]
  simp only [hi, Bool.false_eq_true, if_false]

theorem lstat_events_cases (path : String) (ls : LstatResult) :
    lstat_events path ls = [Event.lstat path] ∨
      lstat_events path ls = [Event.lstat path, Event.perror path] := by
  cases ls with
  | ok s => exact Or.inl rfl
  | fail errno stale =>
    simp only [lstat_events]
    split_ifs
    · exact Or.inr rfl
    · exact Or.inl rfl

/-- The `lstat` step makes no call, or the `lstat` call, or the `lstat` call
and a `perror`. -/
theorem stat_phase_events_cases (g : Globals) (path : String) (d_type : Nat)
    (ls : LstatResult) :
    (stat_phase g path d_type ls).events = [] ∨
      (stat_phase g path d_type ls).events = [Event.lstat path] ∨
      (stat_phase g path d_type ls).events = [Event.lstat path, Event.perror path] := by
  unfold stat_phase
  split_ifs
  · exact Or.inr (lstat_events_cases path ls)
  · exact Or.inr (lstat_events_cases path ls)
  · exact Or.inl rfl

theorem stat_phase_no_descent (g : Globals) (path : String) (d_type : Nat)
    (ls : LstatResult) :
    ∀ ev ∈ (stat_phase g path d_type ls).events, is_descent ev = false := by
  intro ev h
  rcases stat_phase_events_cases g path d_type ls with h1 | h1 | h1 <;> rw [h1] at h <;>
    simp at h
  · subst h; rfl
  · rcases h with rfl | rfl <;> rfl

theorem stat_phase_chown_paths (g : Globals) (path : String) (d_type : Nat)
    (ls : LstatResult) : chown_paths (stat_phase g path d_type ls).events = [] := by
  rcases stat_phase_events_cases g path d_type ls with h1 | h1 | h1 <;> rw [h1] <;> rfl

theorem stat_phase_puts_paths (g : Globals) (path : String) (d_type : Nat)
    (ls : LstatResult) : puts_paths (stat_phase g path d_type ls).events = [] := by
  rcases stat_phase_events_cases g path d_type ls with h1 | h1 | h1 <;> rw [h1] <;> rfl

/-! ## Exclusion -/

theorem chown_paths_append (a b : List Event) :
    chown_paths (a ++ b) = chown_paths a ++ chown_paths b := by
  induction a with
  | nil => rfl
  | cons e rest ih => cases e <;> simp [chown_paths, ih]

theorem puts_paths_append (a b : List Event) :
    puts_paths (a ++ b) = puts_paths a ++ puts_paths b := by
  induction a with
  | nil => rfl
  | cons e rest ih => cases e <;> simp [puts_paths, ih]

theorem do_chown_chown_paths (sys : Sys) (p : String) (u g : Nat) (c : Counters) :
    chown_paths (do_chown sys p u g c).2 = [p] := by
  unfold do_chown
  split <;> rfl

theorem do_chown_puts_paths (sys : Sys) (p : String) (u g : Nat) (c : Counters) :
    puts_paths (do_chown sys p u g c).2 = [] := by
  unfold do_chown
  split <;> rfl

theorem same_walk_refl (g : Globals) : same_walk g g := ⟨rfl, rfl, rfl⟩

theorem stat_phase_rel (gN gD : Globals) (path : String) (d_type : Nat) (ls : LstatResult)
    (h : same_walk gN gD) :
    same_walk (stat_phase gN path d_type ls).g (stat_phase gD path d_type ls).g ∧
      (stat_phase gN path d_type ls).st = (stat_phase gD path d_type ls).st ∧
      (stat_phase gN path d_type ls).d_type = (stat_phase gD path d_type ls).d_type ∧
      (stat_phase gN path d_type ls).events = (stat_phase gD path d_type ls).events := by
  obtain ⟨h1, h2, h3⟩ := h
  unfold stat_phase
  split_ifs <;> simp [same_walk, h1, h2, h3]

theorem handle_leaf_rel (sys : Sys) (cfg : Config) (gN gD : Globals) (path : String)
    (st : Stat) (h : same_walk gN gD) :
    same_walk (handle_leaf sys { cfg with dryrun := false } gN path st).1
        (handle_leaf sys { cfg with dryrun := true } gD path st).1 ∧
      chown_paths (handle_leaf sys { cfg with dryrun := true } gD path st).2 = [] ∧
      ∀ p, (chown_paths (handle_leaf sys { cfg with dryrun := false } gN path st).2).count p ≤
        (puts_paths (handle_leaf sys { cfg with dryrun := true } gD path st).2).count p := by
  unfold handle_leaf
  by_cases ha : admits cfg.filetypemask FILETYPE_REGFILE = true
  · simp only [ha, if_true, Bool.false_eq_true, if_false]
    split_ifs
    · refine ⟨h, rfl, ?_⟩
      intro p
      rw [do_chown_chown_paths]
      simp [puts_paths]
    · refine ⟨h, rfl, ?_⟩
      intro p
      simp [chown_paths]
  · simp only [ha, Bool.false_eq_true, if_false]
    exact ⟨h, rfl, fun p => le_refl _⟩

theorem nlink_check_rel (gN gD : Globals) (cur : Dirlist) (h : same_walk gN gD) :
    same_walk (nlink_check gN cur).1 (nlink_check gD cur).1 ∧
      (nlink_check gN cur).2 = (nlink_check gD cur).2 ∧
      (nlink_check gN cur).2.dirpath = cur.dirpath := by
  obtain ⟨h1, h2, h3⟩ := h
  unfold nlink_check
  rw [h1]
  split_ifs
  · exact ⟨⟨rfl, h2, h3⟩, rfl, rfl⟩
  · exact ⟨⟨h1, h2, h3⟩, rfl, rfl⟩

theorem walk_dir_body_none (sys : Sys) (cfg : Config) (g : Globals) (cur : Dirlist)
    (loop : Globals → Dirlist → Out) :
    walk_dir_body sys cfg g cur none loop =
      ((chown_self sys cfg (loop (nlink_check g cur).1 (nlink_check g cur).2).g
          (loop (nlink_check g cur).1 (nlink_check g cur).2).curdir).1,
        (loop (nlink_check g cur).1 (nlink_check g cur).2).events ++
          (chown_self sys cfg (loop (nlink_check g cur).1 (nlink_check g cur).2).g
            (loop (nlink_check g cur).1 (nlink_check g cur).2).curdir).2) := rfl

theorem walk_dir_body_some (sys : Sys) (cfg : Config) (g : Globals) (cur : Dirlist)
    (e : Nat) (loop : Globals → Dirlist → Out) :
    walk_dir_body sys cfg g cur (some e) loop = (g, [Event.perror cur.dirpath]) := rfl

/-- The body of `walk_dir` without `-n` and with `-n`: the dry run calls no
`do_chown`, and prints every path at least as often as the other run passes
it to `do_chown`, but for the path of the task itself when the type filter
admits directories. -/
theorem walk_dir_body_rel (sys : Sys) (cfg : Config) (gN gD : Globals) (cur : Dirlist)
    (od : Option Nat) (loopN loopD : Globals → Dirlist → Out)
    (hl : loop_dry_rel loopN loopD) (h : same_walk gN gD) :
    same_walk (walk_dir_body sys { cfg with dryrun := false } gN cur od loopN).1
        (walk_dir_body sys { cfg with dryrun := true } gD cur od loopD).1 ∧
      chown_paths (walk_dir_body sys { cfg with dryrun := true } gD cur od loopD).2 = [] ∧
      ∀ p,
        (chown_paths
            (walk_dir_body sys { cfg with dryrun := false } gN cur od loopN).2).count p ≤
          (puts_paths
            (walk_dir_body sys { cfg with dryrun := true } gD cur od loopD).2).count p +
            (if p = cur.dirpath ∧ admits cfg.filetypemask FILETYPE_DIR = true then 1
              else 0) := by
  cases od with
  | some e =>
    simp only [walk_dir_body_some]
    refine ⟨h, rfl, ?_⟩
    intro p
    simp [chown_paths]
  | none =>
    obtain ⟨hc1, hc2, hc3⟩ := nlink_check_rel gN gD cur h
    obtain ⟨hr1, hr2, hr3, hr4, hr5⟩ := hl _ _ (nlink_check gN cur).2 hc1
    simp only [walk_dir_body_none]
    rw [← hc2]
    simp only [chown_paths_append, puts_paths_append, List.count_append]
    have hD : chown_self sys { cfg with dryrun := true }
        (loopD (nlink_check gD cur).1 (nlink_check gN cur).2).g
        (loopD (nlink_check gD cur).1 (nlink_check gN cur).2).curdir =
        ((loopD (nlink_check gD cur).1 (nlink_check gN cur).2).g, []) := by
      simp [chown_self]
    rw [hD]
    simp only [chown_paths, puts_paths, List.append_nil, List.count_nil, Nat.add_zero]
    refine ⟨?_, hr4, ?_⟩
    · unfold chown_self
      simp only [Bool.false_eq_true, if_false]
      split_ifs <;> exact hr1
    · intro p
      have h5 := hr5 p
      unfold chown_self
      by_cases ha : admits cfg.filetypemask FILETYPE_DIR = true
      · simp only [ha, if_true, and_true]
        split_ifs with hc hp hp
        · rw [do_chown_chown_paths]
          have h6 := hr5 cur.dirpath
          simp only [hr3, hc3, hp, List.count_singleton, beq_self_eq_true, if_true]
          omega
        · rw [do_chown_chown_paths]
          simp only [hr3, hc3]
          have : List.count p [cur.dirpath] = 0 := by
            rw [List.count_eq_zero]
            simp only [List.mem_singleton]
            exact hp
          omega
        · simp only [chown_paths, List.count_nil]; omega
        · simp only [chown_paths, List.count_nil]; omega
      · simp only [ha, Bool.false_eq_true, if_false, and_false]
        simp only [chown_paths, List.count_nil]
        omega

theorem inline_cond_rel (cfg : Config) (g1 g2 : Globals) (cur : Dirlist)
    (h : same_walk g1 g2) :
    inline_cond { cfg with dryrun := true } g2 cur =
      inline_cond { cfg with dryrun := false } g1 cur := by
  unfold inline_cond
  rw [h.1]

theorem subdirentry_rel (g1 g2 : Globals) (cur : Dirlist) (path : String) (st : Stat)
    (h : same_walk g1 g2) : subdirentry g2 cur path st = subdirentry g1 cur path st := by
  unfold subdirentry
  rw [h.1]

theorem subdirentry_dirpath (g : Globals) (cur : Dirlist) (path : String) (st : Stat) :
    (subdirentry g cur path st).dirpath = path := rfl

/-- The handling of one entry without `-n` and with `-n` is related by
`dry_rel` when the inline walks below it are. -/
theorem handle_dirent_body_rel (sys : Sys) (cfg : Config) (gN gD : Globals)
    (cur : Dirlist) (d_name : String) (d_type : Nat) (ls : LstatResult)
    (od : Option Nat) (loopN loopD : Globals → Dirlist → Out)
    (hl : loop_dry_rel loopN loopD) (h : same_walk gN gD) :
    dry_rel cur
      (handle_dirent_body sys { cfg with dryrun := false } gN cur d_name d_type ls od loopN)
      (handle_dirent_body sys { cfg with dryrun := true } gD cur d_name d_type ls od
        loopD) := by
  obtain ⟨s1, s2, s3, s4⟩ :=
    stat_phase_rel gN gD (child_path cur.dirpath d_name) d_type ls h
  have hi := inline_cond_rel cfg _ _ cur s1
  have hs := subdirentry_rel _ _ cur (child_path cur.dirpath d_name)
    (stat_phase gN (child_path cur.dirpath d_name) d_type ls).st s1
  have hw := walk_dir_body_rel sys cfg _ _
    (subdirentry (stat_phase gN (child_path cur.dirpath d_name) d_type ls).g cur
      (child_path cur.dirpath d_name)
      (stat_phase gN (child_path cur.dirpath d_name) d_type ls).st) od loopN loopD hl s1
  have hlf := handle_leaf_rel sys cfg _ _ (child_path cur.dirpath d_name)
    (stat_phase gN (child_path cur.dirpath d_name) d_type ls).st s1
  have hcp := stat_phase_chown_paths gN (child_path cur.dirpath d_name) d_type ls
  have hpp := stat_phase_puts_paths gN (child_path cur.dirpath d_name) d_type ls
  by_cases hdive : dive_into_subdir cfg cur
      (stat_phase gN (child_path cur.dirpath d_name) d_type ls).d_type
      (stat_phase gN (child_path cur.dirpath d_name) d_type ls).st = true
  · have hdiveD : dive_into_subdir { cfg with dryrun := true } cur
        (stat_phase gD (child_path cur.dirpath d_name) d_type ls).d_type
        (stat_phase gD (child_path cur.dirpath d_name) d_type ls).st = true := by
      rw [← s2, ← s3]; exact hdive
    by_cases hm : cfg.maxdepth ≠ 0 ∧ cur.depth ≥ cfg.maxdepth
    · rw [handle_dirent_body_depth sys { cfg with dryrun := false } gN cur d_name d_type ls
          od loopN hdive hm,
        handle_dirent_body_depth sys { cfg with dryrun := true } gD cur d_name d_type ls
          od loopD hdiveD hm, ← s4]
      exact ⟨s1, rfl, rfl, hcp, fun p => by rw [hcp]; exact Nat.zero_le _⟩
    · by_cases hx : cfg.excludelist.length > 0 ∧ excluded sys cfg d_name = true
      · rw [handle_dirent_body_excluded sys { cfg with dryrun := false } gN cur d_name d_type
            ls od loopN hdive hx,
          handle_dirent_body_excluded sys { cfg with dryrun := true } gD cur d_name d_type
            ls od loopD hdiveD hx, ← s4]
        exact ⟨s1, rfl, rfl, hcp, fun p => by rw [hcp]; exact Nat.zero_le _⟩
      · have hprN : dir_print { cfg with dryrun := false } (child_path cur.dirpath d_name)
            = [] := by
          simp [dir_print]
        by_cases hin : inline_cond { cfg with dryrun := false }
            (stat_phase gN (child_path cur.dirpath d_name) d_type ls).g cur = true
        · have hinD : inline_cond { cfg with dryrun := true }
              (stat_phase gD (child_path cur.dirpath d_name) d_type ls).g cur = true := by
            rw [hi]; exact hin
          rw [handle_dirent_body_inline sys { cfg with dryrun := false } gN cur d_name d_type
              ls od loopN hdive hm hx hin,
            handle_dirent_body_inline sys { cfg with dryrun := true } gD cur d_name d_type
              ls od loopD hdiveD hm hx hinD, ← s4, ← s2, hs, hprN]
          obtain ⟨w1, w2, w3⟩ := hw
          refine ⟨w1, rfl, rfl, ?_, ?_⟩
          · simp only [chown_paths_append, hcp, w2, List.append_nil, List.nil_append,
              dir_print]
            split_ifs <;> rfl
          · intro p
            have w3p := w3 p
            simp only [subdirentry_dirpath] at w3p
            simp only [chown_paths_append, puts_paths_append, hcp, hpp, List.nil_append,
              List.count_append, chown_paths, puts_paths, List.count_nil, Nat.zero_add,
              Nat.add_zero, dir_print, true_and]
            by_cases ha : admits cfg.filetypemask FILETYPE_DIR = true
            · simp only [ha, if_true, and_true, puts_paths, List.count_singleton] at w3p ⊢
              by_cases hp : p = child_path cur.dirpath d_name
              · subst hp
                simp only [if_true, beq_self_eq_true] at w3p ⊢
                omega
              · have hp2 : (child_path cur.dirpath d_name == p) = false := by
                  simp only [beq_eq_false_iff_ne, ne_eq]
                  exact fun h => hp h.symm
                simp only [hp, if_false, hp2, Bool.false_eq_true] at w3p ⊢
                omega
            · simp only [ha, Bool.false_eq_true, if_false, and_false, puts_paths,
                List.count_nil] at w3p ⊢
              omega
        · have hin2 : inline_cond { cfg with dryrun := false }
              (stat_phase gN (child_path cur.dirpath d_name) d_type ls).g cur = false := by
            simpa using hin
          have hinD : inline_cond { cfg with dryrun := true }
              (stat_phase gD (child_path cur.dirpath d_name) d_type ls).g cur = false := by
            rw [hi]; exact hin2
          rw [handle_dirent_body_enqueue sys { cfg with dryrun := false } gN cur d_name
              d_type ls od loopN hdive hm hx hin2,
            handle_dirent_body_enqueue sys { cfg with dryrun := true } gD cur d_name d_type
              ls od loopD hdiveD hm hx hinD, ← s4, ← s2, hprN]
          refine ⟨s1, rfl, rfl, ?_, ?_⟩
          · simp only [chown_paths_append, hcp, List.nil_append, dir_print]
            split_ifs <;> rfl
          · intro p
            simp only [chown_paths_append, hcp, List.nil_append, chown_paths, List.count_nil]
            exact Nat.zero_le _
  · have hdive2 : dive_into_subdir cfg cur
        (stat_phase gN (child_path cur.dirpath d_name) d_type ls).d_type
        (stat_phase gN (child_path cur.dirpath d_name) d_type ls).st = false := by
      simpa using hdive
    have hdiveD : dive_into_subdir { cfg with dryrun := true } cur
        (stat_phase gD (child_path cur.dirpath d_name) d_type ls).d_type
        (stat_phase gD (child_path cur.dirpath d_name) d_type ls).st = false := by
      rw [← s2, ← s3]; exact hdive2
    rw [handle_dirent_body_leaf sys { cfg with dryrun := false } gN cur d_name d_type ls od
        loopN hdive2,
      handle_dirent_body_leaf sys { cfg with dryrun := true } gD cur d_name d_type ls od
        loopD hdiveD, ← s4, ← s2]
    obtain ⟨l1, l2, l3⟩ := hlf
    refine ⟨l1, rfl, rfl, ?_, ?_⟩
    · simp only [chown_paths_append, hcp, l2, List.append_nil]
    · intro p
      simp only [chown_paths_append, puts_paths_append, hcp, hpp, List.nil_append]
      exact l3 p

theorem walk_entries_nil (sys : Sys) (cfg : Config) (g : Globals) (curdir : Dirlist) :
    walk_entries sys cfg g curdir [] = { g := g, curdir := curdir, events := [] } := by
  rw [walk_entries]

theorem walk_entries_cons (sys : Sys) (cfg : Config) (g : Globals) (curdir : Dirlist)
    (d_name : String) (d_type : Nat) (ls : LstatResult) (od : Option Nat)
    (ents rest : List Node) :
    walk_entries sys cfg g curdir (.mk d_name d_type ls od ents :: rest) =
      if is_dot_or_dotdot d_name then walk_entries sys cfg g curdir rest
      else
        { g := (walk_entries sys cfg
                  (handle_dirent sys cfg g curdir (.mk d_name d_type ls od ents)).g
                  (handle_dirent sys cfg g curdir (.mk d_name d_type ls od ents)).curdir
                  rest).g,
          curdir := (walk_entries sys cfg
                  (handle_dirent sys cfg g curdir (.mk d_name d_type ls od ents)).g
                  (handle_dirent sys cfg g curdir (.mk d_name d_type ls od ents)).curdir
                  rest).curdir,
          events := (handle_dirent sys cfg g curdir (.mk d_name d_type ls od ents)).events ++
            (walk_entries sys cfg
                  (handle_dirent sys cfg g curdir (.mk d_name d_type ls od ents)).g
                  (handle_dirent sys cfg g curdir (.mk d_name d_type ls od ents)).curdir
                  rest).events } := by
  rw [walk_entries]

/-- The `readdir` loop without `-n` and with `-n` are related by `dry_rel`. -/
theorem walk_entries_rel (sys : Sys) (cfg : Config) :
    ∀ ents : List Node,
      loop_dry_rel (fun g c => walk_entries sys { cfg with dryrun := false } g c ents)
        (fun g c => walk_entries sys { cfg with dryrun := true } g c ents)
  | [] => by
    intro gN gD cur h
    simp only [walk_entries_nil]
    exact ⟨h, rfl, rfl, rfl, fun p => le_refl _⟩
  | (.mk d_name d_type ls od ents) :: rest => by
    intro gN gD cur h
    have ih1 := walk_entries_rel sys cfg ents
    have ih2 := walk_entries_rel sys cfg rest
    have hb := handle_dirent_body_rel sys cfg gN gD cur d_name d_type ls od _ _ ih1 h
    simp only [walk_entries_cons]
    split_ifs
    · exact ih2 gN gD cur h
    · rw [handle_dirent_eq, handle_dirent_eq]
      obtain ⟨b1, b2, b3, b4, b5⟩ := hb
      have h2 := ih2 _ _ (handle_dirent_body sys { cfg with dryrun := false } gN cur d_name
        d_type ls od (fun g c => walk_entries sys { cfg with dryrun := false } g c ents)).curdir
        b1
      rw [← b2]
      obtain ⟨r1, r2, r3, r4, r5⟩ := h2
      refine ⟨r1, r2, ?_, ?_, ?_⟩
      · exact r3.trans b3
      · simp only [chown_paths_append, b4, r4, List.append_nil]
      · intro p
        simp only [chown_paths_append, puts_paths_append, List.count_append]
        exact Nat.add_le_add (b5 p) (r5 p)

/-! ## Printed paths are pairwise different -/

theorem name_ok_iff (n : String) : name_ok n = true ↔ n.data ≠ [] ∧ '/' ∉ n.data := by
  simp [name_ok, List.isEmpty_iff]

theorem child_path_data (d n : String) :
    (child_path d n).data = (if d = "/" then ['/'] else d.data ++ ['/']) ++ n.data := by
  unfold child_path
  split_ifs with h
  · rw [String.data_append, h]
  · rw [String.data_append, String.data_append]

theorem split_unique :
    ∀ (a b t1 t2 : List Char), '/' ∉ a → '/' ∉ b →
      (t1 = [] ∨ ∃ t, t1 = '/' :: t) → (t2 = [] ∨ ∃ t, t2 = '/' :: t) →
      a ++ t1 = b ++ t2 → a = b
  | [], b, t1, t2, _, hb, h1, _, h => by
    cases b with
    | nil => rfl
    | cons y b2 =>
      exfalso
      rcases h1 with rfl | ⟨t, rfl⟩
      · simp at h
      · simp only [List.nil_append, List.cons_append, List.cons.injEq] at h
        exact hb (h.1 ▸ List.mem_cons_self _ _)
  | x :: a2, b, t1, t2, ha, hb, h1, h2, h => by
    cases b with
    | nil =>
      exfalso
      rcases h2 with rfl | ⟨t, rfl⟩
      · simp at h
      · simp only [List.nil_append, List.cons_append, List.cons.injEq] at h
        exact ha (h.1 ▸ List.mem_cons_self _ _)
    | cons y b2 =>
      simp only [List.cons_append, List.cons.injEq] at h
      have ha2 : '/' ∉ a2 := fun hm => ha (List.mem_cons_of_mem _ hm)
      have hb2 : '/' ∉ b2 := fun hm => hb (List.mem_cons_of_mem _ hm)
      rw [h.1, split_unique a2 b2 t1 t2 ha2 hb2 h1 h2 h.2]

/-- A path cannot be at or below two different entries of one directory. -/
theorem child_inj (d n1 n2 p : String) (h1 : name_ok n1 = true) (h2 : name_ok n2 = true)
    (u1 : at_or_under (child_path d n1) p) (u2 : at_or_under (child_path d n2) p) :
    n1 = n2 := by
  obtain ⟨t1, e1, c1⟩ := u1
  obtain ⟨t2, e2, c2⟩ := u2
  rw [child_path_data, List.append_assoc] at e1 e2
  have h := List.append_cancel_left (e1.symm.trans e2)
  rw [name_ok_iff] at h1 h2
  exact String.ext (split_unique _ _ _ _ h1.2 h2.2 c1 c2 h)

/-- The path of an entry is never "/". -/
theorem child_path_ne_root (d n : String) (h : name_ok n = true) : child_path d n ≠ "/" := by
  intro he
  have hd := congrArg String.data he
  rw [child_path_data] at hd
  rw [name_ok_iff] at h
  have hl := congrArg List.length hd
  have hn : 0 < n.length := List.length_pos.mpr h.1
  split_ifs at hl <;> simp at hl <;> omega

/-- A path at or below an entry of a directory is not the path of the
directory. -/
theorem at_or_under_child_ne (d n p : String) (h : name_ok n = true)
    (u : at_or_under (child_path d n) p) : p ≠ d := by
  intro he
  subst he
  obtain ⟨t, e, _⟩ := u
  rw [child_path_data] at e
  rw [name_ok_iff] at h
  have hl := congrArg List.length e
  have hn : 0 < n.length := List.length_pos.mpr h.1
  split_ifs at hl with hd
  · rw [hd] at hl
    simp at hl
    omega
  · simp at hl

/-- A path at or below an entry of the directory `c` is below `c`, when `c`
is not "/". -/
theorem at_or_under_child (c n p : String) (hc : c ≠ "/")
    (u : at_or_under (child_path c n) p) : at_or_under c p := by
  obtain ⟨t, e, _⟩ := u
  rw [child_path_data, if_neg hc] at e
  exact ⟨'/' :: (n.data ++ t), by rw [e]; simp, Or.inr ⟨_, rfl⟩⟩

theorem at_or_under_refl (c : String) : at_or_under c c :=
  ⟨[], by simp, Or.inl rfl⟩

theorem chown_self_puts_paths (sys : Sys) (cfg : Config) (g : Globals) (cur : Dirlist) :
    puts_paths (chown_self sys cfg g cur).2 = [] := by
  unfold chown_self
  split_ifs <;> first | rfl | exact do_chown_puts_paths _ _ _ _ _

theorem nlink_check_dirpath (g : Globals) (cur : Dirlist) :
    (nlink_check g cur).2.dirpath = cur.dirpath := by
  unfold nlink_check
  split_ifs <;> rfl

theorem handle_leaf_puts_paths (sys : Sys) (cfg : Config) (g : Globals) (path : String)
    (st : Stat) :
    puts_paths (handle_leaf sys cfg g path st).2 = [] ∨
      puts_paths (handle_leaf sys cfg g path st).2 = [path] := by
  unfold handle_leaf
  split_ifs
  · exact Or.inr rfl
  · exact Or.inl (do_chown_puts_paths _ _ _ _ _)
  · exact Or.inl rfl
  · exact Or.inl rfl

theorem dir_print_puts_paths (cfg : Config) (path : String) :
    puts_paths (dir_print cfg path) = [] ∨ puts_paths (dir_print cfg path) = [path] := by
  unfold dir_print
  split_ifs
  · exact Or.inr rfl
  · exact Or.inl rfl

/-- The paths printed by the body of `walk_dir` are those printed by its
`readdir` loop. -/
theorem walk_dir_body_puts_paths (sys : Sys) (cfg : Config) (g : Globals) (cur : Dirlist)
    (od : Option Nat) (loop : Globals → Dirlist → Out) :
    puts_paths (walk_dir_body sys cfg g cur od loop).2 = [] ∨
      puts_paths (walk_dir_body sys cfg g cur od loop).2 =
        puts_paths (loop (nlink_check g cur).1 (nlink_check g cur).2).events := by
  cases od with
  | some e => exact Or.inl rfl
  | none =>
    right
    rw [walk_dir_body_none, puts_paths_append, chown_self_puts_paths, List.append_nil]

/-- The paths printed by `handle_dirent` for one entry are pairwise
different, and each is the path of the entry or lies below it. -/
theorem handle_dirent_body_puts (sys : Sys) (cfg : Config) (g : Globals)
    (cur : Dirlist) (d_name : String) (d_type : Nat) (ls : LstatResult)
    (od : Option Nat) (loop : Globals → Dirlist → Out)
    (hn : name_ok d_name = true) (hl : loop_puts_ok loop) :
    (handle_dirent_body sys cfg g cur d_name d_type ls od loop).curdir.dirpath =
        cur.dirpath ∧
      (puts_paths (handle_dirent_body sys cfg g cur d_name d_type ls od loop).events).Nodup ∧
      ∀ p ∈ puts_paths (handle_dirent_body sys cfg g cur d_name d_type ls od loop).events,
        at_or_under (child_path cur.dirpath d_name) p := by
  have hpp := stat_phase_puts_paths g (child_path cur.dirpath d_name) d_type ls
  by_cases hdive : dive_into_subdir cfg cur
      (stat_phase g (child_path cur.dirpath d_name) d_type ls).d_type
      (stat_phase g (child_path cur.dirpath d_name) d_type ls).st = true
  · by_cases hm : cfg.maxdepth ≠ 0 ∧ cur.depth ≥ cfg.maxdepth
    · rw [handle_dirent_body_depth sys cfg g cur d_name d_type ls od loop hdive hm]
      simp only [hpp]
      exact ⟨trivial, List.nodup_nil, fun p hp => absurd hp (List.not_mem_nil p)⟩
    · by_cases hx : cfg.excludelist.length > 0 ∧ excluded sys cfg d_name = true
      · rw [handle_dirent_body_excluded sys cfg g cur d_name d_type ls od loop hdive hx]
        simp only [hpp]
        exact ⟨trivial, List.nodup_nil, fun p hp => absurd hp (List.not_mem_nil p)⟩
      · by_cases hin : inline_cond cfg
            (stat_phase g (child_path cur.dirpath d_name) d_type ls).g cur = true
        · rw [handle_dirent_body_inline sys cfg g cur d_name d_type ls od loop hdive hm hx
            hin]
          simp only [puts_paths_append, hpp, List.nil_append, puts_paths, List.append_nil]
          have hsub : ∀ p ∈ puts_paths (walk_dir_body sys cfg
              (stat_phase g (child_path cur.dirpath d_name) d_type ls).g
              (subdirentry (stat_phase g (child_path cur.dirpath d_name) d_type ls).g cur
                (child_path cur.dirpath d_name)
                (stat_phase g (child_path cur.dirpath d_name) d_type ls).st) od loop).2,
              at_or_under (child_path cur.dirpath d_name) p ∧
                p ≠ child_path cur.dirpath d_name := by
            intro p hp
            rcases walk_dir_body_puts_paths sys cfg
              (stat_phase g (child_path cur.dirpath d_name) d_type ls).g
              (subdirentry (stat_phase g (child_path cur.dirpath d_name) d_type ls).g cur
                (child_path cur.dirpath d_name)
                (stat_phase g (child_path cur.dirpath d_name) d_type ls).st) od loop
              with h0 | h0
            · rw [h0] at hp; exact absurd hp (List.not_mem_nil p)
            · rw [h0] at hp
              obtain ⟨n, hn2, hu⟩ := (hl _ _).2 p hp
              rw [nlink_check_dirpath, subdirentry_dirpath] at hu
              exact ⟨at_or_under_child _ _ _ (child_path_ne_root _ _ hn) hu,
                at_or_under_child_ne _ _ _ hn2 hu⟩
          have hnd : (puts_paths (walk_dir_body sys cfg
              (stat_phase g (child_path cur.dirpath d_name) d_type ls).g
              (subdirentry (stat_phase g (child_path cur.dirpath d_name) d_type ls).g cur
                (child_path cur.dirpath d_name)
                (stat_phase g (child_path cur.dirpath d_name) d_type ls).st) od
                loop).2).Nodup := by
            rcases walk_dir_body_puts_paths sys cfg
              (stat_phase g (child_path cur.dirpath d_name) d_type ls).g
              (subdirentry (stat_phase g (child_path cur.dirpath d_name) d_type ls).g cur
                (child_path cur.dirpath d_name)
                (stat_phase g (child_path cur.dirpath d_name) d_type ls).st) od loop
              with h0 | h0
            · rw [h0]; exact List.nodup_nil
            · rw [h0]; exact (hl _ _).1
          refine ⟨trivial, ?_, ?_⟩
          · rcases dir_print_puts_paths cfg (child_path cur.dirpath d_name) with h0 | h0
            · rw [h0]; exact hnd
            · rw [h0]
              simp only [List.singleton_append, List.nodup_cons]
              exact ⟨fun hmem => (hsub _ hmem).2 rfl, hnd⟩
          · intro p hp
            rw [List.mem_append] at hp
            rcases hp with hp | hp
            · rcases dir_print_puts_paths cfg (child_path cur.dirpath d_name) with h0 | h0
              · rw [h0] at hp; exact absurd hp (List.not_mem_nil p)
              · rw [h0, List.mem_singleton] at hp
                rw [hp]; exact at_or_under_refl _
            · exact (hsub p hp).1
        · have hin2 : inline_cond cfg
              (stat_phase g (child_path cur.dirpath d_name) d_type ls).g cur = false := by
            simpa using hin
          rw [handle_dirent_body_enqueue sys cfg g cur d_name d_type ls od loop hdive hm hx
            hin2]
          simp only [puts_paths_append, hpp, List.nil_append, puts_paths, List.append_nil]
          rcases dir_print_puts_paths cfg (child_path cur.dirpath d_name) with h0 | h0
          · rw [h0]
            exact ⟨trivial, List.nodup_nil, fun p hp => absurd hp (List.not_mem_nil p)⟩
          · rw [h0]
            refine ⟨trivial, List.nodup_singleton _, ?_⟩
            intro p hp
            rw [List.mem_singleton] at hp
            rw [hp]; exact at_or_under_refl _
  · have hdive2 : dive_into_subdir cfg cur
        (stat_phase g (child_path cur.dirpath d_name) d_type ls).d_type
        (stat_phase g (child_path cur.dirpath d_name) d_type ls).st = false := by
      simpa using hdive
    rw [handle_dirent_body_leaf sys cfg g cur d_name d_type ls od loop hdive2]
    simp only [puts_paths_append, hpp, List.nil_append]
    rcases handle_leaf_puts_paths sys cfg
      (stat_phase g (child_path cur.dirpath d_name) d_type ls).g
      (child_path cur.dirpath d_name)
      (stat_phase g (child_path cur.dirpath d_name) d_type ls).st with h0 | h0
    · rw [h0]
      exact ⟨trivial, List.nodup_nil, fun p hp => absurd hp (List.not_mem_nil p)⟩
    · rw [h0]
      refine ⟨trivial, List.nodup_singleton _, ?_⟩
      intro p hp
      rw [List.mem_singleton] at hp
      rw [hp]; exact at_or_under_refl _

theorem entries_wf_cons (d_name : String) (d_type : Nat) (ls : LstatResult)
    (od : Option Nat) (ents rest : List Node)
    (h : entries_wf (.mk d_name d_type ls od ents :: rest) = true) :
    name_ok d_name = true ∧ (∀ e ∈ rest, e.name ≠ d_name) ∧ entries_wf ents = true ∧
      entries_wf rest = true := by
  simp only [entries_wf, below_wf, Bool.and_eq_true, List.all_eq_true, Bool.not_eq_true',
    beq_eq_false_iff_ne, ne_eq] at h
  exact ⟨h.1.1.1, h.1.1.2, h.1.2, h.2⟩

theorem entries_wf_name_ok :
    ∀ ents : List Node, entries_wf ents = true → ∀ e ∈ ents, name_ok e.name = true
  | [], _, e, he => absurd he (List.not_mem_nil e)
  | (.mk d_name d_type ls od ents) :: rest, h, e, he => by
    obtain ⟨h1, _, _, h4⟩ := entries_wf_cons d_name d_type ls od ents rest h
    rcases List.mem_cons.mp he with rfl | he2
    · exact h1
    · exact entries_wf_name_ok rest h4 e he2

/-- The paths printed by the `readdir` loop over well-formed entries are
pairwise different, and each is the path of one of the entries or lies below
it. -/
theorem walk_entries_puts (sys : Sys) (cfg : Config) :
    ∀ (ents : List Node) (g : Globals) (cur : Dirlist), entries_wf ents = true →
      (walk_entries sys cfg g cur ents).curdir.dirpath = cur.dirpath ∧
        (puts_paths (walk_entries sys cfg g cur ents).events).Nodup ∧
        ∀ p ∈ puts_paths (walk_entries sys cfg g cur ents).events,
          ∃ e ∈ ents, at_or_under (child_path cur.dirpath e.name) p
  | [], g, cur, _ => by
    rw [walk_entries_nil]
    exact ⟨rfl, List.nodup_nil, fun p hp => absurd hp (List.not_mem_nil p)⟩
  | (.mk d_name d_type ls od ents) :: rest, g, cur, h => by
    obtain ⟨h1, h2, h3, h4⟩ := entries_wf_cons d_name d_type ls od ents rest h
    have hloop : loop_puts_ok (fun g1 c1 => walk_entries sys cfg g1 c1 ents) := by
      intro g1 c1
      obtain ⟨_, i2, i3⟩ := walk_entries_puts sys cfg ents g1 c1 h3
      refine ⟨i2, ?_⟩
      intro p hp
      obtain ⟨e, he, hu⟩ := i3 p hp
      exact ⟨e.name, entries_wf_name_ok ents h3 e he, hu⟩
    obtain ⟨b1, b2, b3⟩ := handle_dirent_body_puts sys cfg g cur d_name d_type ls od _ h1 hloop
    rw [walk_entries_cons]
    split_ifs
    · obtain ⟨r1, r2, r3⟩ := walk_entries_puts sys cfg rest g cur h4
      refine ⟨r1, r2, ?_⟩
      intro p hp
      obtain ⟨e, he, hu⟩ := r3 p hp
      exact ⟨e, List.mem_cons_of_mem _ he, hu⟩
    · rw [handle_dirent_eq]
      obtain ⟨r1, r2, r3⟩ := walk_entries_puts sys cfg rest
        (handle_dirent_body sys cfg g cur d_name d_type ls od
          (fun g1 c1 => walk_entries sys cfg g1 c1 ents)).g
        (handle_dirent_body sys cfg g cur d_name d_type ls od
          (fun g1 c1 => walk_entries sys cfg g1 c1 ents)).curdir h4
      rw [b1] at r1 r3
      refine ⟨r1, ?_, ?_⟩
      · simp only [puts_paths_append]
        rw [List.nodup_append]
        refine ⟨b2, r2, ?_⟩
        intro p hp1 hp2
        obtain ⟨e, he, hu⟩ := r3 p hp2
        have hne := h2 e he
        have hok := entries_wf_name_ok rest h4 e he
        exact hne (child_inj cur.dirpath e.name d_name p hok h1 hu (b3 p hp1))
      · intro p hp
        simp only [puts_paths_append, List.mem_append] at hp
        rcases hp with hp | hp
        · exact ⟨_, List.mem_cons_self _ _, b3 p hp⟩
        · obtain ⟨e, he, hu⟩ := r3 p hp
          exact ⟨e, List.mem_cons_of_mem _ he, hu⟩

/-- The walk of a well-formed directory prints pairwise different paths, and
never the path of the directory task itself. -/
theorem walk_dir_puts (sys : Sys) (cfg : Config) (g : Globals) (cur : Dirlist)
    (node : Node) (h : below_wf node = true) :
    (puts_paths (walk_dir sys cfg g cur node).2).Nodup ∧
      cur.dirpath ∉ puts_paths (walk_dir sys cfg g cur node).2 := by
  obtain ⟨d_name, d_type, ls, od, ents⟩ := node
  have hw : entries_wf ents = true := by simpa [below_wf] using h
  rw [walk_dir_eq]
  rcases walk_dir_body_puts_paths sys cfg g cur od
    (fun g1 c1 => walk_entries sys cfg g1 c1 ents) with h0 | h0
  · rw [h0]
    exact ⟨List.nodup_nil, List.not_mem_nil _⟩
  · rw [h0]
    obtain ⟨_, r2, r3⟩ := walk_entries_puts sys cfg ents (nlink_check g cur).1
      (nlink_check g cur).2 hw
    refine ⟨r2, ?_⟩
    intro hm
    obtain ⟨e, he, hu⟩ := r3 _ hm
    rw [nlink_check_dirpath] at hu
    exact at_or_under_child_ne _ _ _ (entries_wf_name_ok ents hw e he) hu rfl

/-- The walk without `-n` and the walk with `-n`, on any tree. -/
theorem walk_dir_rel (sys : Sys) (cfg : Config) (g : Globals) (cur : Dirlist)
    (node : Node) :
    chown_paths (walk_dir sys { cfg with dryrun := true } g cur node).2 = [] ∧
      ∀ p, p ≠ cur.dirpath →
        (chown_paths (walk_dir sys { cfg with dryrun := false } g cur node).2).count p ≤
          (puts_paths (walk_dir sys { cfg with dryrun := true } g cur node).2).count p := by
  obtain ⟨d_name, d_type, ls, od, ents⟩ := node
  rw [walk_dir_eq, walk_dir_eq]
  obtain ⟨_, w2, w3⟩ := walk_dir_body_rel sys cfg g g cur od _ _
    (walk_entries_rel sys cfg ents) (same_walk_refl g)
  refine ⟨w2, ?_⟩
  intro p hp
  have := w3 p
  simp only [hp, false_and, if_false, Nat.add_zero] at this
  exact this

/-! ## Owner parsing -/

theorem digit_char_spec (m : Nat) (h : m < 10) :
    isdigit (Nat.digitChar m) = true ∧ (Nat.digitChar m).toNat - '0'.toNat = m := by
  interval_cases m <;> decide

theorem isdigit_ne_colon (c : Char) (h : isdigit c = true) : c ≠ ':' := by
  intro e
  subst e
  revert h
  decide

theorem digits_value_cons (acc : Nat) (c : Char) (cs : List Char) (h : isdigit c = true) :
    digits_value acc (c :: cs) = digits_value (acc * 10 + (c.toNat - '0'.toNat)) cs := by
  simp only [digits_value, h, if_true]

/-- The decimal digits that `Nat.toDigitsCore` puts in front of `ds`: each is
a digit, and `digits_value` reads them back as `n`. -/
theorem to_digits_core_spec :
    ∀ (n fuel : Nat) (ds : List Char), n < fuel →
      ∃ L : List Char, Nat.toDigitsCore 10 fuel n ds = L ++ ds ∧ L ≠ [] ∧
        (∀ c ∈ L, isdigit c = true) ∧
        ∀ (acc : Nat) (rest : List Char),
          digits_value acc (L ++ rest) = digits_value (acc * 10 ^ L.length + n) rest := by
  intro n
  induction n using Nat.strong_induction_on with
  | _ n ih =>
    intro fuel ds hf
    cases fuel with
    | zero => omega
    | succ f =>
      have hd := digit_char_spec (n % 10) (Nat.mod_lt _ (by decide))
      rw [Nat.toDigitsCore]
      split_ifs with h0
      · refine ⟨[Nat.digitChar (n % 10)], rfl, by simp, ?_, ?_⟩
        · intro c hc
          rw [List.mem_singleton] at hc
          rw [hc]; exact hd.1
        · intro acc rest
          rw [List.singleton_append, digits_value_cons _ _ _ hd.1, hd.2]
          have : n % 10 = n := by omega
          simp only [List.length_singleton, pow_one, this]
      · have hlt : n / 10 < n := by omega
        obtain ⟨L, e, _, hL, hv⟩ := ih (n / 10) hlt f (Nat.digitChar (n % 10) :: ds) (by omega)
        refine ⟨L ++ [Nat.digitChar (n % 10)], by rw [e]; simp, by simp, ?_, ?_⟩
        · intro c hc
          rw [List.mem_append, List.mem_singleton] at hc
          rcases hc with hc | hc
          · exact hL c hc
          · rw [hc]; exact hd.1
        · intro acc rest
          rw [List.append_assoc, hv, List.singleton_append, digits_value_cons _ _ _ hd.1,
            hd.2]
          congr 1
          simp only [List.length_append, List.length_singleton, pow_succ]
          have := Nat.div_add_mod n 10
          nlinarith [Nat.div_add_mod n 10]

/-- The decimal numeral of `n`: digits only, not empty, read back as `n`. -/
theorem repr_spec (n : Nat) :
    (Nat.repr n).data ≠ [] ∧ (∀ c ∈ (Nat.repr n).data, isdigit c = true) ∧
      digits_value 0 (Nat.repr n).data = n := by
  obtain ⟨L, e, hne, hL, hv⟩ := to_digits_core_spec n (n + 1) [] (Nat.lt_succ_self n)
  have hd : (Nat.repr n).data = L := by
    show Nat.toDigitsCore 10 (n + 1) n [] = L
    rw [e, List.append_nil]
  rw [hd]
  refine ⟨hne, hL, ?_⟩
  have := hv 0 []
  rw [List.append_nil] at this
  rw [this]
  simp [digits_value]

theorem repr_isdigit_first (n : Nat) (rest : List Char) :
    isdigit_first ((Nat.repr n).data ++ rest) = true := by
  obtain ⟨hne, hL, _⟩ := repr_spec n
  cases hd : (Nat.repr n).data with
  | nil => exact absurd hd hne
  | cons c cs =>
    rw [hd] at hL
    exact hL c (List.mem_cons_self _ _)

theorem strtoul_repr (n : Nat) (h : n < 4294967296) :
    strtoul (Nat.repr n).data % UINT_RANGE = n := by
  unfold strtoul UINT_RANGE
  rw [(repr_spec n).2.2]
  have : min n (2 ^ 64 - 1) = n := by
    apply Nat.min_eq_left
    norm_num
    omega
  rw [this]
  exact Nat.mod_eq_of_lt h

theorem split_colon_append :
    ∀ (L rest : List Char), (∀ c ∈ L, c ≠ ':') →
      split_colon (L ++ ':' :: rest) = some (L, rest)
  | [], rest, _ => by simp [split_colon]
  | c :: cs, rest, h => by
    have hc : c ≠ ':' := h c (List.mem_cons_self _ _)
    have ih := split_colon_append cs rest (fun x hx => h x (List.mem_cons_of_mem _ hx))
    rw [List.cons_append, split_colon, if_neg hc, ih]

theorem split_colon_none : ∀ s : List Char, ':' ∉ s → split_colon s = none
  | [], _ => rfl
  | c :: cs, h => by
    have hc : c ≠ ':' := fun e => h (e ▸ List.mem_cons_self _ _)
    have ih := split_colon_none cs (fun hx => h (List.mem_cons_of_mem _ hx))
    rw [split_colon, if_neg hc, ih]

theorem split_colon_repr (n : Nat) (rest : List Char) :
    split_colon ((Nat.repr n).data ++ ':' :: rest) = some ((Nat.repr n).data, rest) :=
  split_colon_append _ _ (fun c hc => isdigit_ne_colon c ((repr_spec n).2.1 c hc))

theorem colon_data (s : String) : (":" ++ s).data = ':' :: s.data := by
  rw [String.data_append]; rfl

theorem parse_owner_colon (U G : String → Option Nat) (grp : String) :
    parse_owner U G (":" ++ grp) = parse_group G [] 4294967295 grp.data := by
  unfold parse_owner
  simp only [colon_data]
  have h : isdigit_first (':' :: grp.data) = false := by
    show isdigit ':' = false
    decide
  simp only [h, Bool.false_eq_true, if_false]
  rfl

theorem parse_group_repr (G : String → Option Nat) (pre : List Lookup) (uid m : Nat)
    (h : m < 4294967296) :
    parse_group G pre uid (Nat.repr m).data = { lookups := pre, ids := some (uid, m) } := by
  unfold parse_group
  have := repr_isdigit_first m []
  rw [List.append_nil] at this
  rw [if_pos this, strtoul_repr m h]

theorem parse_group_name (G : String → Option Nat) (pre : List Lookup) (uid : Nat)
    (name : String) (h : isdigit_first name.data = false) :
    parse_group G pre uid name.data =
      { lookups := pre ++ [Lookup.group name],
        ids := (G name).map (fun gid => (uid, gid % 4294967296)) } := by
  unfold parse_group
  rw [if_neg (by rw [h]; decide)]
  show (match G name with
    | none => ({ lookups := pre ++ [Lookup.group name], ids := none } : Owner)
    | some gid => { lookups := pre ++ [Lookup.group name],
                    ids := some (uid, gid % UINT_RANGE) }) = _
  cases G name <;> rfl

theorem parse_owner_repr_colon (U G : String → Option Nat) (n : Nat) (h : n < 4294967296)
    (grp : String) :
    parse_owner U G (Nat.repr n ++ ":" ++ grp) = parse_group G [] n grp.data := by
  unfold parse_owner
  have hd : (Nat.repr n ++ ":" ++ grp).data = (Nat.repr n).data ++ ':' :: grp.data := by
    rw [String.data_append, String.data_append, List.append_assoc]; rfl
  simp only [hd, repr_isdigit_first, if_true, split_colon_repr, strtoul_repr n h]

theorem parse_owner_no_colon (U G : String → Option Nat) (arg : String)
    (h : ':' ∉ arg.data) :
    (∀ ids, (parse_owner U G arg).ids = some ids → ids.2 = 4294967295) ∧
      ∀ nm, Lookup.group nm ∉ (parse_owner U G arg).lookups := by
  unfold parse_owner
  simp only [split_colon_none arg.data h]
  split_ifs with h1
  · simp only [Option.some.injEq, List.not_mem_nil, not_false_eq_true, implies_true, and_true]
    rintro ids rfl
    rfl
  · split
    · rename_i grp heq
      exact absurd (heq ▸ List.mem_cons_self _ _) h
    · cases hu : U arg with
      | none => simp
      | some uid =>
        simp only [Option.some.injEq, List.mem_singleton, not_false_eq_true, implies_true,
          and_true, reduceCtorEq]
        rintro ids rfl
        rfl

theorem digits_value_stop (acc : Nat) (rest : List Char) (h : isdigit_first rest = false) :
    digits_value acc rest = acc := by
  cases rest with
  | nil => rfl
  | cons c cs =>
    have hc : isdigit c = false := h
    simp only [digits_value, hc, Bool.false_eq_true, if_false]

theorem digits_value_zeros (k : Nat) (s : List Char) :
    digits_value 0 (List.replicate k '0' ++ s) = digits_value 0 s := by
  induction k with
  | zero => rfl
  | succ k ih =>
    rw [List.replicate_succ, List.cons_append, digits_value_cons _ _ _ (by decide)]
    exact ih

/-- The decimal numeral of `n` in front of `rest` is read as the digits of
`n`. -/
theorem repr_value (n acc : Nat) (rest : List Char) :
    digits_value acc ((Nat.repr n).data ++ rest) =
      digits_value (acc * 10 ^ (Nat.repr n).data.length + n) rest := by
  obtain ⟨L, e, _, _, hv⟩ := to_digits_core_spec n (n + 1) [] (Nat.lt_succ_self n)
  have hd : (Nat.repr n).data = L := by
    show Nat.toDigitsCore 10 (n + 1) n [] = L
    rw [e, List.append_nil]
  rw [hd]
  exact hv acc rest

/-- The call `strtoul` on a decimal numeral of `n`, with any number of
leading zeros and followed by text that does not start with a digit. -/
theorem strtoul_numeral (n k : Nat) (rest : List Char) (h : isdigit_first rest = false) :
    strtoul (List.replicate k '0' ++ (Nat.repr n).data ++ rest) = min n (2 ^ 64 - 1) := by
  unfold strtoul
  rw [List.append_assoc, digits_value_zeros, repr_value, digits_value_stop _ _ h]
  simp

theorem parse_group_digit (G : String → Option Nat) (pre : List Lookup) (uid : Nat)
    (grp : List Char) (h : isdigit_first grp = true) :
    parse_group G pre uid grp =
      { lookups := pre, ids := some (uid, strtoul grp % 4294967296) } := by
  unfold parse_group
  rw [if_pos h]
  rfl

theorem append_colon_data (usr grp : String) :
    (usr ++ ":" ++ grp).data = usr.data ++ ':' :: grp.data := by
  rw [String.data_append, String.data_append, List.append_assoc]; rfl

/-- A user part that starts with a digit, followed by a colon. -/
theorem parse_owner_digit_colon (U G : String → Option Nat) (usr grp : String)
    (hc : ':' ∉ usr.data) (hd : isdigit_first usr.data = true) :
    parse_owner U G (usr ++ ":" ++ grp) =
      parse_group G [] (strtoul usr.data % 4294967296) grp.data := by
  unfold parse_owner
  have hfirst : isdigit_first (usr.data ++ ':' :: grp.data) = true := by
    cases hu : usr.data with
    | nil => rw [hu] at hd; exact Bool.noConfusion hd
    | cons c cs => rw [hu] at hd; exact hd
  have hs := split_colon_append usr.data grp.data (fun c hcm e => hc (e ▸ hcm))
  simp only [append_colon_data, hfirst, if_true, hs]
  rfl

/-- A user part that is a name, followed by a colon. -/
theorem parse_owner_name_colon (U G : String → Option Nat) (usr grp : String)
    (hc : ':' ∉ usr.data) (hne : usr.data ≠ []) (hd : isdigit_first usr.data = false) :
    parse_owner U G (usr ++ ":" ++ grp) =
      match U usr with
      | none => { lookups := [Lookup.user usr], ids := none }
      | some uid => parse_group G [Lookup.user usr] (uid % 4294967296) grp.data := by
  unfold parse_owner
  have hfirst : isdigit_first (usr.data ++ ':' :: grp.data) = false := by
    cases hu : usr.data with
    | nil => exact absurd hu hne
    | cons c cs => rw [hu] at hd; exact hd
  have hs := split_colon_append usr.data grp.data (fun c hcm e => hc (e ▸ hcm))
  simp only [append_colon_data, hfirst, Bool.false_eq_true, if_false]
  split
  · rename_i g2 heq
    exfalso
    cases hu : usr.data with
    | nil => exact hne hu
    | cons c cs =>
      rw [hu, List.cons_append] at heq
      have hcc : c = ':' := (List.cons.inj heq).1
      exact hc (by rw [hu, hcc]; exact List.mem_cons_self _ _)
  · simp only [hs]
    rfl

/-- An argument without a colon. -/
theorem parse_owner_plain (U G : String → Option Nat) (arg : String)
    (h : ':' ∉ arg.data) :
    (isdigit_first arg.data = true →
      parse_owner U G arg =
        { lookups := [], ids := some (strtoul arg.data % 4294967296, 4294967295) }) ∧
    (isdigit_first arg.data = false →
      parse_owner U G arg =
        { lookups := [Lookup.user arg],
          ids := (U arg).map (fun uid => (uid % 4294967296, 4294967295)) }) := by
  unfold parse_owner
  simp only [split_colon_none arg.data h]
  constructor
  · intro hd
    rw [if_pos hd]
    rfl
  · intro hd
    rw [if_neg (by rw [hd]; decide)]
    split
    · rename_i grp heq
      exact absurd (heq ▸ List.mem_cons_self _ _) h
    · simp only [hd, Bool.false_eq_true, if_false]
      cases U arg <;> rfl

/-! ## Inline or enqueue -/

theorem stat_phase_flag (g : Globals) (path : String) (d_type : Nat) (ls : LstatResult) :
    (stat_phase g path d_type ls).g.simulate_posix_compliance =
      g.simulate_posix_compliance := by
  unfold stat_phase
  split_ifs <;> rfl

theorem first_descent_skip :
    ∀ (a b : List Event), (∀ ev ∈ a, is_descent ev = false) →
      first_descent (a ++ b) = first_descent b
  | [], _, _ => rfl
  | e :: rest, b, h => by
    have he := h e (List.mem_cons_self _ _)
    have ih := first_descent_skip rest b (fun ev hev => h ev (List.mem_cons_of_mem _ hev))
    cases e <;> simp [is_descent] at he <;> simpa [first_descent] using ih

theorem dir_print_no_descent (cfg : Config) (path : String) :
    ∀ ev ∈ dir_print cfg path, is_descent ev = false := by
  intro ev h
  unfold dir_print at h
  split_ifs at h
  · rw [List.mem_singleton] at h; rw [h]; rfl
  · exact absurd h (List.not_mem_nil ev)

/-- The test of lines 497-499 written out. -/
theorem inline_cond_iff (cfg : Config) (g : Globals) (curdir : Dirlist) :
    inline_cond cfg g curdir = true ↔
      (cfg.inline_processing_threshold ≠ 0 ∧
        (curdir.st_nlink < cfg.inline_processing_threshold + 2 ∨
          (g.simulate_posix_compliance = true ∧
            curdir.inlined < cfg.inline_processing_threshold))) := by
  simp [inline_cond]

/-! ## The counter of inline walks -/

/-- The task after `handle_dirent` is the task before it, or, when the test
of lines 497-499 holds, the task with `inlined` one higher. -/
theorem handle_dirent_body_curdir (sys : Sys) (cfg : Config) (g : Globals)
    (curdir : Dirlist) (d_name : String) (d_type : Nat) (ls : LstatResult)
    (od : Option Nat) (loop : Globals → Dirlist → Out) :
    (handle_dirent_body sys cfg g curdir d_name d_type ls od loop).curdir = curdir ∨
      (inline_cond cfg (stat_phase g (child_path curdir.dirpath d_name) d_type ls).g curdir
          = true ∧
        (handle_dirent_body sys cfg g curdir d_name d_type ls od loop).curdir =
          { curdir with inlined := incr curdir.inlined }) := by
  by_cases hdive : dive_into_subdir cfg curdir
      (stat_phase g (child_path curdir.dirpath d_name) d_type ls).d_type
      (stat_phase g (child_path curdir.dirpath d_name) d_type ls).st = true
  · by_cases hm : cfg.maxdepth ≠ 0 ∧ curdir.depth ≥ cfg.maxdepth
    · rw [handle_dirent_body_depth sys cfg g curdir d_name d_type ls od loop hdive hm]
      exact Or.inl rfl
    · by_cases hx : cfg.excludelist.length > 0 ∧ excluded sys cfg d_name = true
      · rw [handle_dirent_body_excluded sys cfg g curdir d_name d_type ls od loop hdive hx]
        exact Or.inl rfl
      · by_cases hin : inline_cond cfg
            (stat_phase g (child_path curdir.dirpath d_name) d_type ls).g curdir = true
        · rw [handle_dirent_body_inline sys cfg g curdir d_name d_type ls od loop hdive hm
            hx hin]
          exact Or.inr ⟨hin, rfl⟩
        · have hin2 : inline_cond cfg
              (stat_phase g (child_path curdir.dirpath d_name) d_type ls).g curdir
                = false := by
            simpa using hin
          rw [handle_dirent_body_enqueue sys cfg g curdir d_name d_type ls od loop hdive hm
            hx hin2]
          exact Or.inl rfl
  · have hdive2 : dive_into_subdir cfg curdir
        (stat_phase g (child_path curdir.dirpath d_name) d_type ls).d_type
        (stat_phase g (child_path curdir.dirpath d_name) d_type ls).st = false := by
      simpa using hdive
    rw [handle_dirent_body_leaf sys cfg g curdir d_name d_type ls od loop hdive2]
    exact Or.inl rfl

/-- One call of `handle_dirent` keeps `st_nlink`, raises `inlined` by at most
one, keeps it when the threshold is 0, and keeps it at or below the threshold
when `st_nlink` is at least the threshold plus 2. -/
theorem handle_dirent_inlined (sys : Sys) (cfg : Config) (g : Globals) (curdir : Dirlist)
    (e : Node) :
    (handle_dirent sys cfg g curdir e).curdir.st_nlink = curdir.st_nlink ∧
      (handle_dirent sys cfg g curdir e).curdir.inlined ≤ curdir.inlined + 1 ∧
      (cfg.inline_processing_threshold = 0 →
        (handle_dirent sys cfg g curdir e).curdir.inlined = curdir.inlined) ∧
      (cfg.inline_processing_threshold + 2 ≤ curdir.st_nlink →
        curdir.inlined ≤ cfg.inline_processing_threshold →
        (handle_dirent sys cfg g curdir e).curdir.inlined ≤
          cfg.inline_processing_threshold) := by
  obtain ⟨d_name, d_type, ls, od, ents⟩ := e
  rw [handle_dirent_eq]
  rcases handle_dirent_body_curdir sys cfg g curdir d_name d_type ls od
    (fun g1 c1 => walk_entries sys cfg g1 c1 ents) with h | ⟨hc, h⟩
  · rw [h]
    exact ⟨rfl, Nat.le_succ _, fun _ => rfl, fun _ h2 => h2⟩
  · rw [h]
    rw [inline_cond_iff] at hc
    have hle := incr_le curdir.inlined
    refine ⟨rfl, hle, ?_, ?_⟩
    · intro h0; exact absurd h0 hc.1
    · intro h1 _
      rcases hc.2 with h3 | h3
      · omega
      · exact Nat.le_trans hle h3.2

/-- The `readdir` loop keeps `st_nlink`, raises `inlined` by at most the
number of entries, keeps it when the threshold is 0, and keeps it at or below
the threshold when `st_nlink` is at least the threshold plus 2. -/
theorem walk_entries_inlined (sys : Sys) (cfg : Config) :
    ∀ (ents : List Node) (g : Globals) (curdir : Dirlist),
      (walk_entries sys cfg g curdir ents).curdir.st_nlink = curdir.st_nlink ∧
        (walk_entries sys cfg g curdir ents).curdir.inlined ≤ curdir.inlined + ents.length ∧
        (cfg.inline_processing_threshold = 0 →
          (walk_entries sys cfg g curdir ents).curdir.inlined = curdir.inlined) ∧
        (cfg.inline_processing_threshold + 2 ≤ curdir.st_nlink →
          curdir.inlined ≤ cfg.inline_processing_threshold →
          (walk_entries sys cfg g curdir ents).curdir.inlined ≤
            cfg.inline_processing_threshold)
  | [], g, curdir => by
    rw [walk_entries_nil]
    exact ⟨rfl, Nat.le_refl _, fun _ => rfl, fun _ h => h⟩
  | (.mk d_name d_type ls od ents) :: rest, g, curdir => by
    obtain ⟨a1, a2, a3, a4⟩ :=
      handle_dirent_inlined sys cfg g curdir (.mk d_name d_type ls od ents)
    rw [walk_entries_cons]
    split_ifs
    · obtain ⟨b1, b2, b3, b4⟩ := walk_entries_inlined sys cfg rest g curdir
      refine ⟨b1, ?_, b3, b4⟩
      simp only [List.length_cons]
      omega
    · obtain ⟨b1, b2, b3, b4⟩ := walk_entries_inlined sys cfg rest
        (handle_dirent sys cfg g curdir (.mk d_name d_type ls od ents)).g
        (handle_dirent sys cfg g curdir (.mk d_name d_type ls od ents)).curdir
      refine ⟨b1.trans a1, ?_, ?_, ?_⟩
      · simp only [List.length_cons]
        omega
      · intro h0
        rw [b3 h0, a3 h0]
      · intro h1 h2
        exact b4 (by rw [a1]; exact h1) (a4 h1 h2)

/-! ## Inline walks and the number of subdirectories -/

theorem stat_phase_d_type (g : Globals) (path : String) (d_type : Nat) (ls : LstatResult) :
    (stat_phase g path d_type ls).d_type = entry_d_type d_type ls := by
  unfold stat_phase entry_d_type
  split_ifs with h1 h2 <;> first | rfl | (exfalso; tauto)

theorem dive_is_dir (cfg : Config) (curdir : Dirlist) (d_type : Nat) (st : Stat)
    (h : dive_into_subdir cfg curdir d_type st = true) : d_type = DT_DIR := by
  unfold dive_into_subdir at h
  by_contra hd
  rw [if_neg hd] at h
  exact Bool.noConfusion h

/-- One call of `handle_dirent` raises `inlined` only for an entry that it
takes for a directory. -/
theorem handle_dirent_body_subdir (sys : Sys) (cfg : Config) (g : Globals)
    (curdir : Dirlist) (d_name : String) (d_type : Nat) (ls : LstatResult)
    (od : Option Nat) (loop : Globals → Dirlist → Out) :
    (handle_dirent_body sys cfg g curdir d_name d_type ls od loop).curdir.inlined ≤
      curdir.inlined + (if entry_d_type d_type ls = DT_DIR then 1 else 0) := by
  rcases handle_dirent_body_curdir sys cfg g curdir d_name d_type ls od loop with h | ⟨_, h⟩
  · rw [h]; exact Nat.le_add_right _ _
  · by_cases hdive : dive_into_subdir cfg curdir
        (stat_phase g (child_path curdir.dirpath d_name) d_type ls).d_type
        (stat_phase g (child_path curdir.dirpath d_name) d_type ls).st = true
    · have hd := dive_is_dir _ _ _ _ hdive
      rw [stat_phase_d_type] at hd
      rw [h, if_pos hd]
      exact incr_le _
    · have hdive2 : dive_into_subdir cfg curdir
          (stat_phase g (child_path curdir.dirpath d_name) d_type ls).d_type
          (stat_phase g (child_path curdir.dirpath d_name) d_type ls).st = false := by
        simpa using hdive
      rw [handle_dirent_body_leaf sys cfg g curdir d_name d_type ls od loop hdive2]
      exact Nat.le_add_right _ _

/-- The `readdir` loop raises `inlined` by at most the number of entries
that `handle_dirent` takes for directories. -/
theorem walk_entries_subdirs (sys : Sys) (cfg : Config) :
    ∀ (ents : List Node) (g : Globals) (curdir : Dirlist),
      (walk_entries sys cfg g curdir ents).curdir.inlined ≤
        curdir.inlined + subdir_count ents
  | [], g, curdir => by
    rw [walk_entries_nil]
    exact Nat.le_add_right _ _
  | (.mk d_name d_type ls od ents) :: rest, g, curdir => by
    have a := handle_dirent_body_subdir sys cfg g curdir d_name d_type ls od
      (fun g1 c1 => walk_entries sys cfg g1 c1 ents)
    rw [← handle_dirent_eq] at a
    rw [walk_entries_cons]
    by_cases hdot : is_dot_or_dotdot d_name = true
    · rw [if_pos hdot]
      have b := walk_entries_subdirs sys cfg rest g curdir
      simp only [subdir_count]
      omega
    · have hdot2 : is_dot_or_dotdot d_name = false := by simpa using hdot
      rw [if_neg hdot]
      have b := walk_entries_subdirs sys cfg rest
        (handle_dirent sys cfg g curdir (.mk d_name d_type ls od ents)).g
        (handle_dirent sys cfg g curdir (.mk d_name d_type ls od ents)).curdir
      simp only [subdir_count, hdot2, true_and]
      show (walk_entries sys cfg _ _ rest).curdir.inlined ≤ _
      split_ifs at a ⊢ <;> omega

/-- With no `-x`, `-m` and `-E`, a threshold other than 0 and a link count
below the threshold plus 2, every entry taken for a directory is walked
inline, so the loop raises `inlined` by their number (modulo 2^32). -/
theorem walk_entries_inlined_exact (sys : Sys) (cfg : Config) (hx : cfg.xdev = false)
    (hm : cfg.maxdepth = 0) (he : cfg.excludelist = [])
    (hI : cfg.inline_processing_threshold ≠ 0) :
    ∀ (ents : List Node) (g : Globals) (curdir : Dirlist),
      curdir.st_nlink < cfg.inline_processing_threshold + 2 →
      (walk_entries sys cfg g curdir ents).curdir.inlined % 4294967296 =
        (curdir.inlined + subdir_count ents) % 4294967296
  | [], g, curdir, _ => by
    rw [walk_entries_nil]
    rfl
  | (.mk d_name d_type ls od ents) :: rest, g, curdir, hn => by
    rw [walk_entries_cons]
    by_cases hdot : is_dot_or_dotdot d_name = true
    · rw [if_pos hdot]
      have b := walk_entries_inlined_exact sys cfg hx hm he hI rest g curdir hn
      simp only [subdir_count, hdot, Bool.true_eq_false, false_and, if_false, Nat.zero_add]
      exact b
    · have hdot2 : is_dot_or_dotdot d_name = false := by simpa using hdot
      rw [if_neg hdot]
      show (walk_entries sys cfg _ _ rest).curdir.inlined % 4294967296 = _
      simp only [subdir_count, hdot2, true_and]
      rw [handle_dirent_eq]
      by_cases hd : entry_d_type d_type ls = DT_DIR
      · have hdive : dive_into_subdir cfg curdir
            (stat_phase g (child_path curdir.dirpath d_name) d_type ls).d_type
            (stat_phase g (child_path curdir.dirpath d_name) d_type ls).st = true := by
          rw [stat_phase_d_type, hd]
          unfold dive_into_subdir
          rw [if_pos rfl, if_neg (fun h => by rw [hx] at h; exact Bool.noConfusion h.1)]
        have hin : inline_cond cfg
            (stat_phase g (child_path curdir.dirpath d_name) d_type ls).g curdir = true :=
          (inline_cond_iff _ _ _).mpr ⟨hI, Or.inl hn⟩
        rw [handle_dirent_body_inline sys cfg g curdir d_name d_type ls od _ hdive
          (fun h => h.1 hm) (fun h => by rw [he] at h; exact Nat.lt_irrefl 0 h.1) hin]
        have b := walk_entries_inlined_exact sys cfg hx hm he hI rest
          (walk_dir_body sys cfg
            (stat_phase g (child_path curdir.dirpath d_name) d_type ls).g
            (subdirentry (stat_phase g (child_path curdir.dirpath d_name) d_type ls).g
              curdir (child_path curdir.dirpath d_name)
              (stat_phase g (child_path curdir.dirpath d_name) d_type ls).st)
            od (fun g1 c1 => walk_entries sys cfg g1 c1 ents)).1
          { curdir with inlined := incr curdir.inlined } hn
        rw [b, if_pos hd]
        show (incr curdir.inlined + subdir_count rest) % 4294967296 = _
        unfold incr UINT_RANGE
        omega
      · have hdive : dive_into_subdir cfg curdir
            (stat_phase g (child_path curdir.dirpath d_name) d_type ls).d_type
            (stat_phase g (child_path curdir.dirpath d_name) d_type ls).st = false := by
          rw [stat_phase_d_type]
          unfold dive_into_subdir
          rw [if_neg hd]
        rw [handle_dirent_body_leaf sys cfg g curdir d_name d_type ls od _ hdive]
        have b := walk_entries_inlined_exact sys cfg hx hm he hI rest
          (handle_leaf sys cfg (stat_phase g (child_path curdir.dirpath d_name) d_type ls).g
            (child_path curdir.dirpath d_name)
            (stat_phase g (child_path curdir.dirpath d_name) d_type ls).st).1 curdir hn
        rw [b, if_neg hd]
        omega

theorem subdir_count_take :
    ∀ (ents : List Node) (n : Nat), subdir_count (ents.take n) ≤ subdir_count ents
  | [], n => by simp [subdir_count]
  | _ :: _, 0 => by simp [subdir_count]
  | (.mk d_name d_type ls od ents) :: rest, n + 1 => by
    have ih := subdir_count_take rest n
    simp only [List.take_succ_cons, subdir_count]
    omega

/-! ## The `lstat` counters -/

theorem lstat_count_append (a b : List Event) :
    lstat_count (a ++ b) = lstat_count a + lstat_count b := by
  induction a with
  | nil => simp [lstat_count]
  | cons e rest ih =>
    cases e <;> simp [lstat_count, ih]
    omega

theorem lstat_events_count (path : String) (ls : LstatResult) :
    lstat_count (lstat_events path ls) = 1 := by
  rcases lstat_events_cases path ls with h | h <;> rw [h] <;> rfl

theorem do_chown_lstat_count (sys : Sys) (p : String) (u g : Nat) (c : Counters) :
    lstat_count (do_chown sys p u g c).2 = 0 := by
  unfold do_chown
  split <;> rfl

theorem stat_phase_stat_ok (g : Globals) (path : String) (d_type : Nat) (ls : LstatResult) :
    stat_ok g (stat_phase g path d_type ls).g (stat_phase g path d_type ls).events := by
  unfold stat_phase stat_ok
  split_ifs
  · simp only [stat_sum, incr, UINT_RANGE, lstat_events_count]; omega
  · simp only [stat_sum, incr, UINT_RANGE, lstat_events_count]; omega
  · simp only [stat_sum, lstat_count]; rfl

theorem handle_leaf_stat (sys : Sys) (cfg : Config) (g : Globals) (path : String)
    (st : Stat) :
    (handle_leaf sys cfg g path st).1.statcount = g.statcount ∧
      (handle_leaf sys cfg g path st).1.statcount_unexp = g.statcount_unexp ∧
      lstat_count (handle_leaf sys cfg g path st).2 = 0 := by
  unfold handle_leaf
  split_ifs
  · exact ⟨rfl, rfl, rfl⟩
  · exact ⟨rfl, rfl, do_chown_lstat_count _ _ _ _ _⟩
  · exact ⟨rfl, rfl, rfl⟩
  · exact ⟨rfl, rfl, rfl⟩

theorem chown_self_stat (sys : Sys) (cfg : Config) (g : Globals) (cur : Dirlist) :
    stat_sum (chown_self sys cfg g cur).1 = stat_sum g ∧
      lstat_count (chown_self sys cfg g cur).2 = 0 := by
  unfold chown_self
  split_ifs
  · exact ⟨rfl, do_chown_lstat_count _ _ _ _ _⟩
  · exact ⟨rfl, rfl⟩
  · exact ⟨rfl, rfl⟩
  · exact ⟨rfl, rfl⟩

theorem nlink_check_stat (g : Globals) (cur : Dirlist) :
    stat_sum (nlink_check g cur).1 = stat_sum g := by
  unfold nlink_check
  split_ifs <;> rfl

theorem stat_ok_trans (g g2 g3 : Globals) (e1 e2 : List Event) (h1 : stat_ok g g2 e1)
    (h2 : stat_ok g2 g3 e2) : stat_ok g g3 (e1 ++ e2) := by
  unfold stat_ok at *
  rw [lstat_count_append]
  omega

theorem walk_dir_body_stat (sys : Sys) (cfg : Config) (g : Globals) (cur : Dirlist)
    (od : Option Nat) (loop : Globals → Dirlist → Out) (hl : loop_stat_ok loop) :
    stat_ok g (walk_dir_body sys cfg g cur od loop).1
      (walk_dir_body sys cfg g cur od loop).2 := by
  cases od with
  | some e =>
    rw [walk_dir_body_some]
    simp [stat_ok, lstat_count]
  | none =>
    rw [walk_dir_body_none]
    have h1 := hl (nlink_check g cur).1 (nlink_check g cur).2
    obtain ⟨c1, c2⟩ := chown_self_stat sys cfg
      (loop (nlink_check g cur).1 (nlink_check g cur).2).g
      (loop (nlink_check g cur).1 (nlink_check g cur).2).curdir
    unfold stat_ok at *
    simp only [lstat_count_append, c1, c2]
    rw [nlink_check_stat] at h1
    omega

/-- One call of `handle_dirent` raises the sum of the two `lstat` counters by
the number of its `lstat` calls, when the inline walk below it does. -/
theorem handle_dirent_body_stat (sys : Sys) (cfg : Config) (g : Globals)
    (curdir : Dirlist) (d_name : String) (d_type : Nat) (ls : LstatResult)
    (od : Option Nat) (loop : Globals → Dirlist → Out) (hl : loop_stat_ok loop) :
    stat_ok g (handle_dirent_body sys cfg g curdir d_name d_type ls od loop).g
      (handle_dirent_body sys cfg g curdir d_name d_type ls od loop).events := by
  have hsp := stat_phase_stat_ok g (child_path curdir.dirpath d_name) d_type ls
  by_cases hdive : dive_into_subdir cfg curdir
      (stat_phase g (child_path curdir.dirpath d_name) d_type ls).d_type
      (stat_phase g (child_path curdir.dirpath d_name) d_type ls).st = true
  · by_cases hm : cfg.maxdepth ≠ 0 ∧ curdir.depth ≥ cfg.maxdepth
    · rw [handle_dirent_body_depth sys cfg g curdir d_name d_type ls od loop hdive hm]
      exact hsp
    · by_cases hx : cfg.excludelist.length > 0 ∧ excluded sys cfg d_name = true
      · rw [handle_dirent_body_excluded sys cfg g curdir d_name d_type ls od loop hdive hx]
        exact hsp
      · have hpr : lstat_count (dir_print cfg (child_path curdir.dirpath d_name)) = 0 := by
          unfold dir_print
          split_ifs <;> rfl
        by_cases hin : inline_cond cfg
            (stat_phase g (child_path curdir.dirpath d_name) d_type ls).g curdir = true
        · rw [handle_dirent_body_inline sys cfg g curdir d_name d_type ls od loop hdive hm
            hx hin]
          have hw := walk_dir_body_stat sys cfg
            (stat_phase g (child_path curdir.dirpath d_name) d_type ls).g
            (subdirentry (stat_phase g (child_path curdir.dirpath d_name) d_type ls).g
              curdir (child_path curdir.dirpath d_name)
              (stat_phase g (child_path curdir.dirpath d_name) d_type ls).st) od loop hl
          unfold stat_ok at *
          simp only [lstat_count_append, hpr, lstat_count]
          omega
        · have hin2 : inline_cond cfg
              (stat_phase g (child_path curdir.dirpath d_name) d_type ls).g curdir
                = false := by
            simpa using hin
          rw [handle_dirent_body_enqueue sys cfg g curdir d_name d_type ls od loop hdive hm
            hx hin2]
          unfold stat_ok at *
          simp only [lstat_count_append, hpr, lstat_count]
          omega
  · have hdive2 : dive_into_subdir cfg curdir
        (stat_phase g (child_path curdir.dirpath d_name) d_type ls).d_type
        (stat_phase g (child_path curdir.dirpath d_name) d_type ls).st = false := by
      simpa using hdive
    rw [handle_dirent_body_leaf sys cfg g curdir d_name d_type ls od loop hdive2]
    obtain ⟨l1, l2, l3⟩ := handle_leaf_stat sys cfg
      (stat_phase g (child_path curdir.dirpath d_name) d_type ls).g
      (child_path curdir.dirpath d_name)
      (stat_phase g (child_path curdir.dirpath d_name) d_type ls).st
    unfold stat_ok at *
    simp only [lstat_count_append, l3, stat_sum, l1, l2] at *
    omega

/-- The `readdir` loop raises the sum of the two `lstat` counters by the
number of its `lstat` calls. -/
theorem walk_entries_stat (sys : Sys) (cfg : Config) :
    ∀ ents : List Node, loop_stat_ok (fun g c => walk_entries sys cfg g c ents)
  | [] => by
    intro g c
    simp only [walk_entries_nil]
    simp [stat_ok, lstat_count]
  | (.mk d_name d_type ls od ents) :: rest => by
    intro g c
    have hb := handle_dirent_body_stat sys cfg g c d_name d_type ls od _
      (walk_entries_stat sys cfg ents)
    simp only [walk_entries_cons]
    split_ifs
    · exact walk_entries_stat sys cfg rest g c
    · rw [handle_dirent_eq]
      exact stat_ok_trans _ _ _ _ _ hb (walk_entries_stat sys cfg rest _ _)

theorem d_type_of_mode_unknown (st_mode : Nat)
    (h : st_mode &&& S_IFMT ≠ S_IFDIR) : d_type_of_mode st_mode DT_UNKNOWN ≠ DT_DIR := by
  unfold d_type_of_mode
  simp only []
  split_ifs <;> decide

theorem stat_phase_head (g : Globals) (path : String) (d_type : Nat) (ls : LstatResult)
    (h : d_type = DT_DIR ∨ d_type = DT_UNKNOWN) :
    ∃ rest, (stat_phase g path d_type ls).events = Event.lstat path :: rest ∧
      lstat_count rest = 0 := by
  have he : (stat_phase g path d_type ls).events = lstat_events path ls := by
    unfold stat_phase
    rw [if_pos h]
    split_ifs <;> rfl
  rw [he]
  rcases lstat_events_cases path ls with h1 | h1
  · exact ⟨[], h1, rfl⟩
  · exact ⟨_, h1, rfl⟩

/-- Every call list of `handle_dirent` starts with the calls of its `lstat`
step. -/
theorem handle_dirent_body_starts (sys : Sys) (cfg : Config) (g : Globals)
    (curdir : Dirlist) (d_name : String) (d_type : Nat) (ls : LstatResult)
    (od : Option Nat) (loop : Globals → Dirlist → Out) :
    ∃ rest, (handle_dirent_body sys cfg g curdir d_name d_type ls od loop).events =
      (stat_phase g (child_path curdir.dirpath d_name) d_type ls).events ++ rest := by
  unfold handle_dirent_body
  simp only []
  split_ifs
  · exact ⟨[], by simp⟩
  · exact ⟨[], by simp⟩
  · exact ⟨_, by simp only [List.append_assoc]; rfl⟩
  · exact ⟨_, by simp only [List.append_assoc]; rfl⟩
  · exact ⟨_, rfl⟩

/-! ## Path construction -/

theorem utf8_size_append (a b : String) :
    (a ++ b).utf8ByteSize = a.utf8ByteSize + b.utf8ByteSize := by
  obtain ⟨x⟩ := a
  obtain ⟨y⟩ := b
  show String.utf8Len (x ++ y) = String.utf8Len x + String.utf8Len y
  exact String.utf8Len_append x y

/-! ## Exclusion and the other entries of the directory -/

/-- C1 (type filter), evaluated where the code departs from it: with `-f`
and `-x` (`filetypemask = FILETYPE_REGFILE`, `xdev` set) the walk of `/r`
calls `do_chown` on `/r/mnt`, an entry that is a directory (hint `DT_DIR`,
mode `S_IFDIR`) on another device. -/
theorem C1_only_f_with_xdev_chowns_a_directory :
    (walk_dir sys_ok
        { cfg_plain 1000 ID_UNCHANGED with xdev := true, filetypemask := FILETYPE_REGFILE }
        globals_zero (task_start "/r" (stat_dir 1 3 0 0)) tree_mount).2 =
      [Event.lstat "/r/mnt", Event.lchown "/r/mnt" 1000 4294967295] := by
  decide

/-- C2 (device boundary) fails as stated: with `-x` and no type filter,
`handle_dirent` calls `do_chown` on the directory entry `mnt` whose `st_dev`
(2) differs from `curdir.st_dev` (1). -/
theorem C2_counterexample :
    (handle_dirent sys_ok { cfg_plain 1000 ID_UNCHANGED with xdev := true } globals_zero
        (task_start "/r" (stat_dir 1 3 0 0)) (node_dir "mnt" (stat_dir 2 2 0 0) [])).events =
      [Event.lstat "/r/mnt", Event.lchown "/r/mnt" 1000 4294967295] := by
  decide

/-- C2 as amended: with `-x`, for every entry on which `lstat` succeeded with
an `st_dev` different from `curdir.st_dev`, `handle_dirent` makes no descent
(no inline `walk_dir`, no `dirlist_add_dir`) whatever the type filter; with
only `-d` it makes no call but the `lstat`; with a type filter that admits
both kinds (neither or both of `-f`, `-d`) it treats the entry as a leaf:
under `-n` it prints it, otherwise it calls `do_chown` on it exactly when the
owner or group of the `lstat` record differs from the target. -/
theorem C2_xdev_entry_is_leaf (sys : Sys) (cfg : Config) (g : Globals) (curdir : Dirlist)
    (d_name : String) (d_type : Nat) (s : Stat) (od : Option Nat) (ents : List Node)
    (hx : cfg.xdev = true) (ht : d_type = DT_DIR ∨ d_type = DT_UNKNOWN)
    (hd : s.st_dev ≠ curdir.st_dev) :
    (∀ ev ∈ (handle_dirent sys cfg g curdir (.mk d_name d_type (.ok s) od ents)).events,
        is_descent ev = false) ∧
      (handle_dirent sys cfg g curdir (.mk d_name d_type (.ok s) od ents)).curdir = curdir ∧
      (cfg.filetypemask = FILETYPE_DIR →
        (handle_dirent sys cfg g curdir (.mk d_name d_type (.ok s) od ents)).events =
          [Event.lstat (child_path curdir.dirpath d_name)]) ∧
      (admits cfg.filetypemask FILETYPE_REGFILE = true →
        admits cfg.filetypemask FILETYPE_DIR = true → cfg.dryrun = true →
        (handle_dirent sys cfg g curdir (.mk d_name d_type (.ok s) od ents)).events =
          [Event.lstat (child_path curdir.dirpath d_name),
            Event.puts (child_path curdir.dirpath d_name)]) ∧
      (admits cfg.filetypemask FILETYPE_REGFILE = true →
        admits cfg.filetypemask FILETYPE_DIR = true → cfg.dryrun = false →
        (Event.lchown (child_path curdir.dirpath d_name) cfg.new_uid cfg.new_gid ∈
            (handle_dirent sys cfg g curdir (.mk d_name d_type (.ok s) od ents)).events ↔
          (s.st_uid ≠ cfg.new_uid ∨ s.st_gid ≠ cfg.new_gid))) := by
  have hsp := stat_phase_ok g (child_path curdir.dirpath d_name) d_type s ht
  have hdive : dive_into_subdir cfg curdir
      (stat_phase g (child_path curdir.dirpath d_name) d_type (.ok s)).d_type
      (stat_phase g (child_path curdir.dirpath d_name) d_type (.ok s)).st = false := by
    apply dive_xdev_false _ _ _ _ hx
    rw [hsp.1]; exact hd
  rw [handle_dirent_eq, handle_dirent_body_leaf _ _ _ _ _ _ _ _ _ hdive]
  simp only [hsp.1, hsp.2]
  refine ⟨?_, trivial, ?_, ?_, ?_⟩
  · intro ev hev
    simp only [List.mem_append, List.mem_singleton] at hev
    rcases hev with rfl | hev
    · rfl
    · unfold handle_leaf at hev
      split_ifs at hev
      · simp at hev; subst hev; rfl
      · simp only [do_chown] at hev
        split at hev <;> simp at hev
        · rcases hev with rfl | rfl <;> rfl
        · subst hev; rfl
      · simp at hev
      · simp at hev
  · intro hm
    simp [handle_leaf, admits, hm, FILETYPE_DIR, FILETYPE_REGFILE]
  · intro hm _ hn
    simp [handle_leaf, hm, hn]
  · intro hm _ hn
    simp only [handle_leaf, hm, hn]
    simp only [if_true, Bool.false_eq_true, if_false, Nat.zero_le, true_and]
    split_ifs with hc
    · simp only [List.mem_append, List.mem_singleton]
      constructor
      · intro _; exact hc
      · intro _; exact Or.inr (do_chown_mem _ _ _ _ _)
    · simp [hc]

/-- Witness for C2: the mount point `mnt` (device 2, owned by 0:0) below `/r`
(device 1) with `-x`: with `-d` no call but the `lstat`; with no type filter
it is printed under `-n` and passed to `do_chown` otherwise. -/
theorem C2_xdev_entry_is_leaf_witness :
    (∀ ev ∈ (handle_dirent sys_ok
          { cfg_plain 1000 ID_UNCHANGED with xdev := true, filetypemask := FILETYPE_DIR }
          globals_zero (task_start "/r" (stat_dir 1 3 0 0))
          (node_dir "mnt" (stat_dir 2 2 0 0) [])).events, is_descent ev = false) ∧
      (handle_dirent sys_ok
          { cfg_plain 1000 ID_UNCHANGED with xdev := true, filetypemask := FILETYPE_DIR }
          globals_zero (task_start "/r" (stat_dir 1 3 0 0))
          (node_dir "mnt" (stat_dir 2 2 0 0) [])).events = [Event.lstat "/r/mnt"] ∧
      (handle_dirent sys_ok
          { cfg_plain 1000 ID_UNCHANGED with xdev := true, dryrun := true }
          globals_zero (task_start "/r" (stat_dir 1 3 0 0))
          (node_dir "mnt" (stat_dir 2 2 0 0) [])).events =
        [Event.lstat (child_path "/r" "mnt"), Event.puts (child_path "/r" "mnt")] ∧
      Event.lchown (child_path "/r" "mnt") 1000 ID_UNCHANGED ∈
        (handle_dirent sys_ok { cfg_plain 1000 ID_UNCHANGED with xdev := true }
          globals_zero (task_start "/r" (stat_dir 1 3 0 0))
          (node_dir "mnt" (stat_dir 2 2 0 0) [])).events :=
  have h := C2_xdev_entry_is_leaf sys_ok
    { cfg_plain 1000 ID_UNCHANGED with xdev := true, filetypemask := FILETYPE_DIR }
    globals_zero (task_start "/r" (stat_dir 1 3 0 0)) "mnt" DT_DIR (stat_dir 2 2 0 0) none []
    rfl (Or.inl rfl) (by decide)
  have hn := C2_xdev_entry_is_leaf sys_ok
    { cfg_plain 1000 ID_UNCHANGED with xdev := true, dryrun := true }
    globals_zero (task_start "/r" (stat_dir 1 3 0 0)) "mnt" DT_DIR (stat_dir 2 2 0 0) none []
    rfl (Or.inl rfl) (by decide)
  have hc := C2_xdev_entry_is_leaf sys_ok
    { cfg_plain 1000 ID_UNCHANGED with xdev := true }
    globals_zero (task_start "/r" (stat_dir 1 3 0 0)) "mnt" DT_DIR (stat_dir 2 2 0 0) none []
    rfl (Or.inl rfl) (by decide)
  ⟨h.1, h.2.2.1 rfl, hn.2.2.2.1 (by decide) (by decide) rfl,
    (hc.2.2.2.2 (by decide) (by decide) rfl).mpr (Or.inl (by decide))⟩

/-- C4 (depth bound), evaluated where the code departs from it: with `-m 1`
the walk of `/r` (depth 0) calls `do_chown` on the regular file `/r/a/f` of
depth 2.  On the chain of directories `/r/a/b/c` of the scenario only `/r/a`
and `/r` are chowned. -/
theorem C4_maxdepth_1_chowns_file_of_depth_2 :
    (walk_dir sys_ok { cfg_plain 1000 ID_UNCHANGED with maxdepth := 1 } globals_zero
        (task_start "/r" (stat_dir 1 3 0 0)) tree_r_a_f).2 =
      [Event.lstat "/r/a",
        Event.walk_dir
          { dirpath := "/r/a", depth := 1, inlined := 0, filecnt := 0, st_nlink := 2,
            st_dev := 1, st_uid := 0, st_gid := 0 },
        Event.lchown "/r/a/f" 1000 4294967295,
        Event.lchown "/r/a" 1000 4294967295,
        Event.lchown "/r" 1000 4294967295] ∧
    chown_paths (walk_dir sys_ok { cfg_plain 1000 ID_UNCHANGED with maxdepth := 1 }
        globals_zero (task_start "/r" (stat_dir 1 3 0 0)) tree_r_a_b_c).2 =
      ["/r/a", "/r"] := by
  decide

/-- C5 (dry run) fails as stated: on the empty directory `/r` the walk
without `-n` passes `/r` itself to `do_chown`, and the walk with `-n` prints
nothing. -/
theorem C5_counterexample :
    (walk_dir sys_ok (cfg_plain 1000 ID_UNCHANGED) globals_zero
        (task_start "/r" (stat_dir 1 2 0 0)) tree_empty).2 =
      [Event.lchown "/r" 1000 4294967295] ∧
    (walk_dir sys_ok { cfg_plain 1000 ID_UNCHANGED with dryrun := true } globals_zero
        (task_start "/r" (stat_dir 1 2 0 0)) tree_empty).2 = [] := by
  decide

/-- C5 as amended: with `-n`, for every directory tree and every setting of
the other options, `walk_dir` and `handle_dirent` make no `do_chown` call;
every path other than the path of the walked task itself is printed with
`puts` at least as often as the same walk without `-n` passes it to
`do_chown`; and when the names in every directory are as `readdir` returns
them (not empty, no "/", pairwise different), no path is printed twice, the
path of the walked task itself is not printed, and every other path that the
walk without `-n` passes to `do_chown` is printed exactly once. -/
theorem C5_dry_run (sys : Sys) (cfg : Config) (g : Globals) (cur : Dirlist) (node : Node) :
    chown_paths (walk_dir sys { cfg with dryrun := true } g cur node).2 = [] ∧
      (∀ p, p ≠ cur.dirpath →
        (chown_paths (walk_dir sys { cfg with dryrun := false } g cur node).2).count p ≤
          (puts_paths (walk_dir sys { cfg with dryrun := true } g cur node).2).count p) ∧
      (below_wf node = true →
        (puts_paths (walk_dir sys { cfg with dryrun := true } g cur node).2).Nodup ∧
          cur.dirpath ∉ puts_paths (walk_dir sys { cfg with dryrun := true } g cur node).2 ∧
          ∀ p ∈ chown_paths (walk_dir sys { cfg with dryrun := false } g cur node).2,
            p ≠ cur.dirpath →
            (puts_paths (walk_dir sys { cfg with dryrun := true } g cur node).2).count p
              = 1) := by
  obtain ⟨h1, h2⟩ := walk_dir_rel sys cfg g cur node
  refine ⟨h1, h2, ?_⟩
  intro hw
  obtain ⟨h3, h4⟩ := walk_dir_puts sys { cfg with dryrun := true } g cur node hw
  refine ⟨h3, h4, ?_⟩
  intro p hp hne
  have hc := h2 p hne
  have hpos : 0 < (chown_paths
      (walk_dir sys { cfg with dryrun := false } g cur node).2).count p :=
    List.count_pos_iff.mpr hp
  exact List.count_eq_one_of_mem h3 (List.count_pos_iff.mp (Nat.lt_of_lt_of_le hpos hc))

/-- Witness for C5: on `/r/a/f` the dry run prints `/r/a/f`, which the walk
without `-n` passes to `do_chown`, exactly once. -/
theorem C5_dry_run_witness :
    below_wf tree_r_a_f = true ∧
      "/r/a/f" ∈ chown_paths (walk_dir sys_ok
        { cfg_plain 1000 ID_UNCHANGED with dryrun := false } globals_zero
        (task_start "/r" (stat_dir 1 3 0 0)) tree_r_a_f).2 ∧
      (puts_paths (walk_dir sys_ok
        { cfg_plain 1000 ID_UNCHANGED with dryrun := true } globals_zero
        (task_start "/r" (stat_dir 1 3 0 0)) tree_r_a_f).2).count "/r/a/f" = 1 :=
  ⟨by decide, by decide,
    ((C5_dry_run sys_ok (cfg_plain 1000 ID_UNCHANGED) globals_zero
      (task_start "/r" (stat_dir 1 3 0 0)) tree_r_a_f).2.2 (by decide)).2.2 "/r/a/f"
      (by decide) (by decide)⟩

/-- C6 (statistics identity) fails as stated: the counters are 32-bit
`unsigned`, so a successful `do_chown` at `entries_chowned = 4294967295`
leaves 0, and after 4294967296 successful calls from zeroed counters the sum
of the four counters is 0. -/
theorem C6_counterexample :
    (do_chown sys_ok "/r/f" 1000 100 ⟨4294967295, 0, 0, 0⟩).1 = ⟨0, 0, 0, 0⟩ ∧
      counter_sum (do_chown_seq sys_ok (List.replicate 4294967296 ("/r/f", 1000, 100))
        ⟨0, 0, 0, 0⟩) = 0 := by
  refine ⟨by decide, ?_⟩
  rw [do_chown_seq_replicate ("/r/f", 1000, 100) 4294967296 ⟨0, 0, 0, 0⟩ (by decide)]
  rfl

/-- C6 as amended: every call of `do_chown` changes exactly one of the four
counters, to its old value plus 1 modulo 2^32, and leaves the other three
unchanged (success: `entries_chowned`, `EACCES`: `file_no_access`, `ENOENT`:
`file_not_found`, any other errno: `file_any_other_error`); hence after `n`
sequential calls from zeroed counters the sum of the four counters is
congruent to `n` modulo 2^32, and equals `n` when `n < 2^32`. -/
theorem C6_counters (sys : Sys) (path : String) (owner group : Nat) (c : Counters)
    (calls : List (String × Nat × Nat)) :
    (sys.lchown path owner group = none →
      (do_chown sys path owner group c).1 =
        { c with entries_chowned := (c.entries_chowned + 1) % 4294967296 }) ∧
    (sys.lchown path owner group = some EACCES →
      (do_chown sys path owner group c).1 =
        { c with file_no_access := (c.file_no_access + 1) % 4294967296 }) ∧
    (sys.lchown path owner group = some ENOENT →
      (do_chown sys path owner group c).1 =
        { c with file_not_found := (c.file_not_found + 1) % 4294967296 }) ∧
    (∀ e, sys.lchown path owner group = some e → e ≠ EACCES → e ≠ ENOENT →
      (do_chown sys path owner group c).1 =
        { c with file_any_other_error := (c.file_any_other_error + 1) % 4294967296 }) ∧
    counter_sum (do_chown_seq sys calls ⟨0, 0, 0, 0⟩) % 4294967296 =
      calls.length % 4294967296 ∧
    (calls.length < 4294967296 →
      counter_sum (do_chown_seq sys calls ⟨0, 0, 0, 0⟩) = calls.length) := by
  refine ⟨?_, ?_, ?_, ?_, ?_, ?_⟩
  · intro h
    simp only [do_chown, h, incr, UINT_RANGE]
  · intro h
    simp only [do_chown, h, incr, UINT_RANGE, if_true]
  · intro h
    simp only [do_chown, h, incr, UINT_RANGE]
    rw [if_neg (by decide)]
    simp only [if_true]
  · intro e h h1 h2
    simp only [do_chown, h, incr, UINT_RANGE]
    rw [if_neg h1, if_neg h2]
  · have h := (do_chown_seq_sum sys calls ⟨0, 0, 0, 0⟩).1
    simpa [counter_sum] using h
  · intro hlt
    obtain ⟨h1, h2⟩ := do_chown_seq_sum sys calls ⟨0, 0, 0, 0⟩
    simp only [counter_sum, Nat.add_zero, Nat.zero_add] at h1 h2
    simp only [counter_sum] at *
    omega

/-- Witness for C6: one call of each kind, and the four calls in sequence. -/
theorem C6_counters_witness :
    (do_chown sys_errors "/r" 1000 100 ⟨0, 0, 0, 0⟩).1 = ⟨1, 0, 0, 0⟩ ∧
      (do_chown sys_errors "/r/f" 1000 100 ⟨0, 0, 0, 0⟩).1 = ⟨0, 1, 0, 0⟩ ∧
      (do_chown sys_errors "/r/g" 1000 100 ⟨0, 0, 0, 0⟩).1 = ⟨0, 0, 1, 0⟩ ∧
      (do_chown sys_errors "/r/h" 1000 100 ⟨0, 0, 0, 0⟩).1 = ⟨0, 0, 0, 1⟩ ∧
      counter_sum (do_chown_seq sys_errors
        [("/r", 1000, 100), ("/r/f", 1000, 100), ("/r/g", 1000, 100), ("/r/h", 1000, 100)]
        ⟨0, 0, 0, 0⟩) = 4 :=
  ⟨(C6_counters sys_errors "/r" 1000 100 ⟨0, 0, 0, 0⟩ []).1 rfl,
    (C6_counters sys_errors "/r/f" 1000 100 ⟨0, 0, 0, 0⟩ []).2.1 rfl,
    (C6_counters sys_errors "/r/g" 1000 100 ⟨0, 0, 0, 0⟩ []).2.2.1 rfl,
    (C6_counters sys_errors "/r/h" 1000 100 ⟨0, 0, 0, 0⟩ []).2.2.2.1 1 rfl (by decide)
      (by decide),
    (C6_counters sys_errors "/r" 1000 100 ⟨0, 0, 0, 0⟩
      [("/r", 1000, 100), ("/r/f", 1000, 100), ("/r/g", 1000, 100),
        ("/r/h", 1000, 100)]).2.2.2.2.2 (by decide)⟩

/-- C7 (mutation skip), evaluated where the code departs from it: with the
target "uid 1000, group unchanged" (`new_gid` is the sentinel), `walk_dir`
calls `do_chown` on a directory that uid 1000 already owns, and
`handle_dirent` calls it on a regular file, known from `lstat`, that uid
1000 already owns. -/
theorem C7_sentinel_does_not_match :
    (walk_dir sys_ok (cfg_plain 1000 ID_UNCHANGED) globals_zero
        (task_start "/r" (stat_dir 1 2 1000 100)) tree_empty).2 =
      [Event.lchown "/r" 1000 4294967295] ∧
    (handle_dirent sys_ok (cfg_plain 1000 ID_UNCHANGED) globals_zero
        (task_start "/r" (stat_dir 1 2 1000 100))
        (.mk "f" DT_UNKNOWN (.ok (stat_reg 1 1000 100)) (some 20) [])).events =
      [Event.lstat "/r/f", Event.lchown "/r/f" 1000 4294967295] := by
  decide

/-- C8 (mutation without stat) fails as stated: when `new_uid` and `new_gid`
both are the all-ones value, `handle_dirent` makes no call at all for a
regular file with a `DT_REG` hint. -/
theorem C8_counterexample :
    (handle_dirent sys_ok (cfg_plain 4294967295 4294967295) globals_zero
        (task_start "/r" (stat_dir 1 2 0 0)) (node_reg "f" (stat_reg 1 0 0))).events = [] := by
  decide

/-- C8 as amended: for every entry whose type hint is known and not a
directory (so that no `lstat` is made), with `dryrun` off and a type filter
that admits it, `handle_dirent` calls `do_chown(path, new_uid, new_gid)`, and
nothing else, exactly when `new_uid` or `new_gid` differs from the all-ones
value; when both are all ones it makes no call. -/
theorem C8_no_stat_chown (sys : Sys) (cfg : Config) (g : Globals) (curdir : Dirlist)
    (d_name : String) (d_type : Nat) (ls : LstatResult) (od : Option Nat)
    (ents : List Node) (h1 : d_type ≠ DT_DIR) (h2 : d_type ≠ DT_UNKNOWN)
    (hn : cfg.dryrun = false) (ha : admits cfg.filetypemask FILETYPE_REGFILE = true) :
    (cfg.new_uid ≠ 4294967295 ∨ cfg.new_gid ≠ 4294967295 →
      (handle_dirent sys cfg g curdir (.mk d_name d_type ls od ents)).events =
        (do_chown sys (child_path curdir.dirpath d_name) cfg.new_uid cfg.new_gid
          g.counters).2 ∧
      Event.lchown (child_path curdir.dirpath d_name) cfg.new_uid cfg.new_gid ∈
        (handle_dirent sys cfg g curdir (.mk d_name d_type ls od ents)).events) ∧
    (cfg.new_uid = 4294967295 ∧ cfg.new_gid = 4294967295 →
      (handle_dirent sys cfg g curdir (.mk d_name d_type ls od ents)).events = []) := by
  have hsp := stat_phase_known g (child_path curdir.dirpath d_name) d_type ls h1 h2
  have hdive : dive_into_subdir cfg curdir
      (stat_phase g (child_path curdir.dirpath d_name) d_type ls).d_type
      (stat_phase g (child_path curdir.dirpath d_name) d_type ls).st = false := by
    rw [hsp]
    simp [dive_into_subdir, h1]
  rw [handle_dirent_eq, handle_dirent_body_leaf _ _ _ _ _ _ _ _ _ hdive, hsp]
  have hu : (st_init stale_unread).st_uid = 4294967295 := by decide
  have hg : (st_init stale_unread).st_gid = 4294967295 := by decide
  simp only [handle_leaf, ha, hn, if_true, Bool.false_eq_true, if_false, hu, hg,
    Nat.zero_le, true_and, List.nil_append]
  constructor
  · intro hne
    have hc : 4294967295 ≠ cfg.new_uid ∨ 4294967295 ≠ cfg.new_gid := by
      rcases hne with h | h
      · exact Or.inl (fun e => h e.symm)
      · exact Or.inr (fun e => h e.symm)
    rw [if_pos hc]
    exact ⟨rfl, do_chown_mem _ _ _ _ _⟩
  · intro he
    have hc : ¬ (4294967295 ≠ cfg.new_uid ∨ 4294967295 ≠ cfg.new_gid) := by
      rw [he.1, he.2]; simp
    rw [if_neg hc]

/-- Witness for C8: the regular file `f` with a `DT_REG` hint, with the
target "uid 1000, group unchanged" and with both target ids all ones. -/
theorem C8_no_stat_chown_witness :
    (handle_dirent sys_ok (cfg_plain 1000 ID_UNCHANGED) globals_zero
        (task_start "/r" (stat_dir 1 2 0 0)) (node_reg "f" (stat_reg 1 0 0))).events =
      (do_chown sys_ok (child_path "/r" "f") 1000 ID_UNCHANGED globals_zero.counters).2 ∧
    (handle_dirent sys_ok (cfg_plain 4294967295 4294967295) globals_zero
        (task_start "/r" (stat_dir 1 2 0 0)) (.mk "g" DT_LNK (.ok (stat_reg 1 0 0))
          (some 20) [])).events = [] :=
  ⟨((C8_no_stat_chown sys_ok (cfg_plain 1000 ID_UNCHANGED) globals_zero
    (task_start "/r" (stat_dir 1 2 0 0)) "f" DT_REG (.ok (stat_reg 1 0 0)) (some 20) []
    (by decide) (by decide) rfl (by decide)).1 (Or.inl (by decide))).1,
   (C8_no_stat_chown sys_ok (cfg_plain 4294967295 4294967295) globals_zero
    (task_start "/r" (stat_dir 1 2 0 0)) "g" DT_LNK (.ok (stat_reg 1 0 0)) (some 20) []
    (by decide) (by decide) rfl (by decide)).2 ⟨rfl, rfl⟩⟩

/-- C9 (owner parsing) fails as stated: for "1000:" the group is absent,
yet `main` calls `groupname_to_gid_or_exit` on the empty name; `new_gid` is
what that call returns (here 7, not the sentinel), and the program ends when
the call ends it. -/
theorem C9_counterexample :
    parse_owner (fun _ => none) (fun _ => some 7) "1000:" =
        { lookups := [Lookup.group ""], ids := some (1000, 7) } ∧
      parse_owner (fun _ => none) (fun _ => none) "1000:" =
        { lookups := [Lookup.group ""], ids := none } := by
  decide

/-- C9 as amended, for every argument.  A part (user or group) that starts
with a digit is numeric: it is passed to `strtoul` and the result is taken
modulo 2^32, no resolver is called for it; `strtoul` reads a decimal
numeral, with or without leading zeros and up to the first character that
is not a digit, as its value (at most 2^64 - 1).  Any other user part is
passed to `username_to_uid_or_exit`, and any other group part after a colon,
the empty one as in "1000:" and "bob:" included, to
`groupname_to_gid_or_exit`; the id is what the resolver returns, and a
resolver that ends the program leaves no ids.  A leading ":" gives `new_uid`
the sentinel and takes the rest as the group part; without any ":"
`new_gid` is the sentinel and no group name is resolved; otherwise the text
before the first ":" is the user part and the text after it the group
part. -/
theorem C9_owner_parsing (U G : String → Option Nat) :
    (∀ grp : String, isdigit_first grp.data = true →
      parse_owner U G (":" ++ grp) =
        { lookups := [], ids := some (4294967295, strtoul grp.data % 4294967296) }) ∧
    (∀ grp : String, isdigit_first grp.data = false →
      parse_owner U G (":" ++ grp) =
        { lookups := [Lookup.group grp],
          ids := (G grp).map (fun gid => (4294967295, gid % 4294967296)) }) ∧
    (∀ arg : String, ':' ∉ arg.data → isdigit_first arg.data = true →
      parse_owner U G arg =
        { lookups := [], ids := some (strtoul arg.data % 4294967296, 4294967295) }) ∧
    (∀ arg : String, ':' ∉ arg.data → isdigit_first arg.data = false →
      parse_owner U G arg =
        { lookups := [Lookup.user arg],
          ids := (U arg).map (fun uid => (uid % 4294967296, 4294967295)) }) ∧
    (∀ usr grp : String, ':' ∉ usr.data → isdigit_first usr.data = true →
      (isdigit_first grp.data = true →
        parse_owner U G (usr ++ ":" ++ grp) =
          { lookups := [],
            ids := some (strtoul usr.data % 4294967296, strtoul grp.data % 4294967296) }) ∧
      (isdigit_first grp.data = false →
        parse_owner U G (usr ++ ":" ++ grp) =
          { lookups := [Lookup.group grp],
            ids := (G grp).map
              (fun gid => (strtoul usr.data % 4294967296, gid % 4294967296)) })) ∧
    (∀ usr grp : String, ':' ∉ usr.data → usr.data ≠ [] → isdigit_first usr.data = false →
      (U usr = none →
        parse_owner U G (usr ++ ":" ++ grp) =
          { lookups := [Lookup.user usr], ids := none }) ∧
      (∀ uid, U usr = some uid →
        (isdigit_first grp.data = true →
          parse_owner U G (usr ++ ":" ++ grp) =
            { lookups := [Lookup.user usr],
              ids := some (uid % 4294967296, strtoul grp.data % 4294967296) }) ∧
        (isdigit_first grp.data = false →
          parse_owner U G (usr ++ ":" ++ grp) =
            { lookups := [Lookup.user usr, Lookup.group grp],
              ids := (G grp).map (fun gid => (uid % 4294967296, gid % 4294967296)) }))) ∧
    (∀ (n k : Nat) (rest : List Char), isdigit_first rest = false →
      strtoul (List.replicate k '0' ++ (Nat.repr n).data ++ rest) = min n (2 ^ 64 - 1)) ∧
    (∀ n m, n < 4294967296 → m < 4294967296 →
      parse_owner U G (Nat.repr n ++ ":" ++ Nat.repr m) =
        { lookups := [], ids := some (n, m) }) ∧
    (∀ n, n < 4294967296 →
      parse_owner U G (Nat.repr n ++ ":" ++ "") =
        { lookups := [Lookup.group ""],
          ids := (G "").map (fun gid => (n, gid % 4294967296)) }) := by
  refine ⟨?_, ?_, ?_, ?_, ?_, ?_, ?_, ?_, ?_⟩
  · intro grp hd
    rw [parse_owner_colon, parse_group_digit G [] _ grp.data hd]
  · intro grp hd
    rw [parse_owner_colon, parse_group_name G [] _ grp hd]
    rfl
  · intro arg h hd
    exact (parse_owner_plain U G arg h).1 hd
  · intro arg h hd
    exact (parse_owner_plain U G arg h).2 hd
  · intro usr grp hc hd
    constructor
    · intro hg
      rw [parse_owner_digit_colon U G usr grp hc hd, parse_group_digit G [] _ grp.data hg]
    · intro hg
      rw [parse_owner_digit_colon U G usr grp hc hd, parse_group_name G [] _ grp hg]
      rfl
  · intro usr grp hc hne hd
    have h := parse_owner_name_colon U G usr grp hc hne hd
    constructor
    · intro hu
      rw [h, hu]
    · intro uid hu
      rw [hu] at h
      have h2 : parse_owner U G (usr ++ ":" ++ grp) =
          parse_group G [Lookup.user usr] (uid % 4294967296) grp.data := h
      constructor
      · intro hg
        rw [h2, parse_group_digit G _ _ grp.data hg]
      · intro hg
        rw [h2, parse_group_name G _ _ grp hg]
        rfl
  · intro n k rest h
    exact strtoul_numeral n k rest h
  · intro n m hn hm
    rw [parse_owner_repr_colon U G n hn, parse_group_repr G [] n m hm]
  · intro n hn
    rw [parse_owner_repr_colon U G n hn, parse_group_name G [] n "" rfl]
    rfl

/-- Witness for C9: ":0100", ":staff", "1000", "bob", "1000:100",
"1000:staff", "1000:", "bob:100", "bob:staff", "bob:", and the value of
"0100". -/
theorem C9_owner_parsing_witness :
    parse_owner (fun _ => some 5) (fun _ => some 7) (":" ++ "0100") =
        { lookups := [], ids := some (4294967295, 100) } ∧
      parse_owner (fun _ => some 5) (fun _ => some 7) (":" ++ "staff") =
        { lookups := [Lookup.group "staff"], ids := some (4294967295, 7) } ∧
      parse_owner (fun _ => some 5) (fun _ => some 7) "1000" =
        { lookups := [], ids := some (1000, 4294967295) } ∧
      parse_owner (fun _ => some 5) (fun _ => some 7) "bob" =
        { lookups := [Lookup.user "bob"], ids := some (5, 4294967295) } ∧
      parse_owner (fun _ => some 5) (fun _ => some 7) ("1000" ++ ":" ++ "100") =
        { lookups := [],
          ids := some (1000, 100) } ∧
      parse_owner (fun _ => some 5) (fun _ => some 7) ("1000" ++ ":" ++ "staff") =
        { lookups := [Lookup.group "staff"],
          ids := some (1000, 7) } ∧
      parse_owner (fun _ => some 5) (fun _ => some 7) ("1000" ++ ":" ++ "") =
        { lookups := [Lookup.group ""],
          ids := some (1000, 7) } ∧
      parse_owner (fun _ => some 5) (fun _ => some 7) ("bob" ++ ":" ++ "100") =
        { lookups := [Lookup.user "bob"],
          ids := some (5, 100) } ∧
      parse_owner (fun _ => some 5) (fun _ => some 7) ("bob" ++ ":" ++ "staff") =
        { lookups := [Lookup.user "bob", Lookup.group "staff"], ids := some (5, 7) } ∧
      parse_owner (fun _ => some 5) (fun _ => some 7) ("bob" ++ ":" ++ "") =
        { lookups := [Lookup.user "bob", Lookup.group ""], ids := some (5, 7) } ∧
      strtoul (List.replicate 1 '0' ++ (Nat.repr 100).data ++ []) = 100 :=
  ⟨(C9_owner_parsing (fun _ => some 5) (fun _ => some 7)).1 "0100" (by decide),
    (C9_owner_parsing (fun _ => some 5) (fun _ => some 7)).2.1 "staff" (by decide),
    (C9_owner_parsing (fun _ => some 5) (fun _ => some 7)).2.2.1 "1000" (by decide)
      (by decide),
    (C9_owner_parsing (fun _ => some 5) (fun _ => some 7)).2.2.2.1 "bob" (by decide)
      (by decide),
    ((C9_owner_parsing (fun _ => some 5) (fun _ => some 7)).2.2.2.2.1 "1000" "100"
      (by decide) (by decide)).1 (by decide),
    ((C9_owner_parsing (fun _ => some 5) (fun _ => some 7)).2.2.2.2.1 "1000" "staff"
      (by decide) (by decide)).2 (by decide),
    ((C9_owner_parsing (fun _ => some 5) (fun _ => some 7)).2.2.2.2.1 "1000" ""
      (by decide) (by decide)).2 (by decide),
    (((C9_owner_parsing (fun _ => some 5) (fun _ => some 7)).2.2.2.2.2.1 "bob" "100"
      (by decide) (by decide) (by decide)).2 5 rfl).1 (by decide),
    (((C9_owner_parsing (fun _ => some 5) (fun _ => some 7)).2.2.2.2.2.1 "bob" "staff"
      (by decide) (by decide) (by decide)).2 5 rfl).2 (by decide),
    (((C9_owner_parsing (fun _ => some 5) (fun _ => some 7)).2.2.2.2.2.1 "bob" ""
      (by decide) (by decide) (by decide)).2 5 rfl).2 (by decide),
    (C9_owner_parsing (fun _ => some 5) (fun _ => some 7)).2.2.2.2.2.2.1 100 1 []
      (by decide)⟩

/-- C10 (single worker), evaluated where the code departs from it: with one
thread `main` stores `DIRTY_CONSTANT` in the `unsigned char`
`inline_processing_threshold`, which is then 255; in a directory with
`st_nlink = 257` (255 subdirectories) `handle_dirent` calls
`dirlist_add_dir` on a subdirectory and makes no inline `walk_dir` call. -/
theorem C10_single_thread_enqueues :
    main_inline_processing_threshold 1 none = 255 ∧
    (handle_dirent sys_ok
        { cfg_plain 1000 ID_UNCHANGED with
          inline_processing_threshold := main_inline_processing_threshold 1 none }
        globals_zero (task_start "/r" (stat_dir 1 257 0 0))
        (node_dir "d" (stat_dir 1 2 0 0) [])).events =
      [Event.lstat "/r/d",
        Event.dirlist_add_dir "/r/d" 1
          { st_dev := 1, st_mode := 16877, st_nlink := 2, st_uid := 0, st_gid := 0,
            st_ino := 0 }] := by
  decide

/-- C11 (POSIX inline quota), evaluated where the code departs from it: with
the flag unset and the default threshold 2, in the directory `/r` with link
count 4 and two subdirectories both are handed to `dirlist_add_dir`, and in
the directory with link count 5 and three subdirectories all three are; no
subdirectory is walked inline. -/
theorem C11_two_subdirs_are_enqueued :
    (walk_dir sys_ok (cfg_plain 1000 ID_UNCHANGED) globals_zero
        (task_start "/r" (stat_dir 1 4 0 0)) tree_two_subdirs).2 =
      [Event.lstat "/r/a", Event.dirlist_add_dir "/r/a" 1 (stat_dir 1 2 0 0),
        Event.lstat "/r/b", Event.dirlist_add_dir "/r/b" 1 (stat_dir 1 2 0 0),
        Event.lchown "/r" 1000 4294967295] ∧
    (walk_dir sys_ok (cfg_plain 1000 ID_UNCHANGED) globals_zero
        (task_start "/r" (stat_dir 1 5 0 0)) tree_three_subdirs).2 =
      [Event.lstat "/r/a", Event.dirlist_add_dir "/r/a" 1 (stat_dir 1 2 0 0),
        Event.lstat "/r/b", Event.dirlist_add_dir "/r/b" 1 (stat_dir 1 2 0 0),
        Event.lstat "/r/c", Event.dirlist_add_dir "/r/c" 1 (stat_dir 1 2 0 0),
        Event.lchown "/r" 1000 4294967295] := by
  decide

/-- C12 (decision function): for every subdirectory that `handle_dirent`
decides to descend into (`dive_into_subdir` true, not beyond `maxdepth`, not
excluded), with `path` the path of the entry, `sp` the result of the `lstat`
step and `sub` the task built for an inline walk: when `I != 0` and
(`curdir.st_nlink < I + 2`, or the flag is set and `curdir.inlined < I`),
`handle_dirent` raises `curdir.inlined` by one and makes exactly the calls of
the `lstat` step, the `puts` of a dry run, and the inline `walk_dir` on
`sub`; otherwise it leaves `curdir` as it is and makes exactly the calls of
the `lstat` step, the `puts` of a dry run and one call of `dirlist_add_dir`
with the path and the depth of `curdir` plus one.  So the first descent is an
inline walk exactly under that condition and a `dirlist_add_dir` call exactly
otherwise; with `I == 0` the subdirectory is enqueued; with the flag unset
and `I > 0` it is inlined exactly when `curdir.st_nlink < I + 2`; and `sub`
has the path of the entry, the depth of `curdir` plus one and `inlined = 0`.
The depth plus one is that of the `unsigned` field: `curdir.depth + 1` as
long as that is below 2^32. -/
theorem C12_inline_or_enqueue (sys : Sys) (cfg : Config) (g : Globals) (curdir : Dirlist)
    (d_name : String) (d_type : Nat) (ls : LstatResult) (od : Option Nat)
    (ents : List Node) (path : String) (sp : StatPhase) (sub : Dirlist)
    (hpath : path = child_path curdir.dirpath d_name)
    (hsp : sp = stat_phase g path d_type ls)
    (hsub : sub = subdirentry sp.g curdir path sp.st)
    (hdive : dive_into_subdir cfg curdir sp.d_type sp.st = true)
    (hm : ¬ (cfg.maxdepth ≠ 0 ∧ curdir.depth ≥ cfg.maxdepth))
    (hx : ¬ (cfg.excludelist.length > 0 ∧ excluded sys cfg d_name = true)) :
    ((cfg.inline_processing_threshold ≠ 0 ∧
          (curdir.st_nlink < cfg.inline_processing_threshold + 2 ∨
            (g.simulate_posix_compliance = true ∧
              curdir.inlined < cfg.inline_processing_threshold))) →
      handle_dirent sys cfg g curdir (.mk d_name d_type ls od ents) =
        { g := (walk_dir sys cfg sp.g sub (.mk d_name d_type ls od ents)).1,
          curdir := { curdir with inlined := incr curdir.inlined },
          events := sp.events ++ dir_print cfg path ++ [Event.walk_dir sub] ++
            (walk_dir sys cfg sp.g sub (.mk d_name d_type ls od ents)).2 }) ∧
    (¬ (cfg.inline_processing_threshold ≠ 0 ∧
          (curdir.st_nlink < cfg.inline_processing_threshold + 2 ∨
            (g.simulate_posix_compliance = true ∧
              curdir.inlined < cfg.inline_processing_threshold))) →
      handle_dirent sys cfg g curdir (.mk d_name d_type ls od ents) =
        { g := sp.g, curdir := curdir,
          events := sp.events ++ dir_print cfg path ++
            [Event.dirlist_add_dir path (incr curdir.depth) sp.st] }) ∧
    (first_descent (handle_dirent sys cfg g curdir (.mk d_name d_type ls od ents)).events =
          some (Event.walk_dir sub) ↔
        (cfg.inline_processing_threshold ≠ 0 ∧
          (curdir.st_nlink < cfg.inline_processing_threshold + 2 ∨
            (g.simulate_posix_compliance = true ∧
              curdir.inlined < cfg.inline_processing_threshold)))) ∧
    (first_descent (handle_dirent sys cfg g curdir (.mk d_name d_type ls od ents)).events =
          some (Event.dirlist_add_dir path (incr curdir.depth) sp.st) ↔
        ¬ (cfg.inline_processing_threshold ≠ 0 ∧
          (curdir.st_nlink < cfg.inline_processing_threshold + 2 ∨
            (g.simulate_posix_compliance = true ∧
              curdir.inlined < cfg.inline_processing_threshold)))) ∧
    (cfg.inline_processing_threshold = 0 →
      handle_dirent sys cfg g curdir (.mk d_name d_type ls od ents) =
        { g := sp.g, curdir := curdir,
          events := sp.events ++ dir_print cfg path ++
            [Event.dirlist_add_dir path (incr curdir.depth) sp.st] }) ∧
    (g.simulate_posix_compliance = false → cfg.inline_processing_threshold ≠ 0 →
      (first_descent (handle_dirent sys cfg g curdir (.mk d_name d_type ls od ents)).events =
          some (Event.walk_dir sub) ↔
        curdir.st_nlink < cfg.inline_processing_threshold + 2)) ∧
    (sub.dirpath = path ∧ sub.depth = incr curdir.depth ∧ sub.inlined = 0) ∧
    (curdir.depth + 1 < 4294967296 → incr curdir.depth = curdir.depth + 1) := by
  subst hsub hsp hpath
  have hF := inline_cond_iff cfg
    (stat_phase g (child_path curdir.dirpath d_name) d_type ls).g curdir
  rw [stat_phase_flag] at hF
  have hnd := stat_phase_no_descent g (child_path curdir.dirpath d_name) d_type ls
  have hpd := dir_print_no_descent cfg (child_path curdir.dirpath d_name)
  have hdepth : curdir.depth + 1 < 4294967296 → incr curdir.depth = curdir.depth + 1 :=
    fun h => Nat.mod_eq_of_lt h
  rw [handle_dirent_eq]
  by_cases hin : inline_cond cfg
      (stat_phase g (child_path curdir.dirpath d_name) d_type ls).g curdir = true
  · have hFt := hF.mp hin
    rw [handle_dirent_body_inline sys cfg g curdir d_name d_type ls od _ hdive hm hx hin]
    have hfd : first_descent
        ((stat_phase g (child_path curdir.dirpath d_name) d_type ls).events ++
          dir_print cfg (child_path curdir.dirpath d_name) ++
          [Event.walk_dir
            (subdirentry (stat_phase g (child_path curdir.dirpath d_name) d_type ls).g
              curdir (child_path curdir.dirpath d_name)
              (stat_phase g (child_path curdir.dirpath d_name) d_type ls).st)] ++
          (walk_dir_body sys cfg
                (stat_phase g (child_path curdir.dirpath d_name) d_type ls).g
                (subdirentry (stat_phase g (child_path curdir.dirpath d_name) d_type ls).g
                  curdir (child_path curdir.dirpath d_name)
                  (stat_phase g (child_path curdir.dirpath d_name) d_type ls).st)
                od (fun g1 c1 => walk_entries sys cfg g1 c1 ents)).2) =
        some (Event.walk_dir
            (subdirentry (stat_phase g (child_path curdir.dirpath d_name) d_type ls).g
              curdir (child_path curdir.dirpath d_name)
              (stat_phase g (child_path curdir.dirpath d_name) d_type ls).st)) := by
      rw [List.append_assoc, List.append_assoc, first_descent_skip _ _ hnd,
        first_descent_skip _ _ hpd]
      rfl
    refine ⟨fun _ => rfl, fun h => absurd hFt h, ?_, ?_, fun h0 => absurd h0 hFt.1, ?_,
      ⟨rfl, rfl, rfl⟩, hdepth⟩
    · exact ⟨fun _ => hFt, fun _ => hfd⟩
    · constructor
      · intro h
        rw [hfd] at h
        exact Event.noConfusion (Option.some.inj h)
      · intro h; exact absurd hFt h
    · intro hfl _
      constructor
      · intro _
        rcases hFt.2 with h | h
        · exact h
        · rw [hfl] at h; exact absurd h.1 (by decide)
      · intro _; exact hfd
  · have hin2 : inline_cond cfg
        (stat_phase g (child_path curdir.dirpath d_name) d_type ls).g curdir = false := by
      simpa using hin
    have hFf : ¬ (cfg.inline_processing_threshold ≠ 0 ∧
          (curdir.st_nlink < cfg.inline_processing_threshold + 2 ∨
            (g.simulate_posix_compliance = true ∧
              curdir.inlined < cfg.inline_processing_threshold))) := fun h => hin (hF.mpr h)
    rw [handle_dirent_body_enqueue sys cfg g curdir d_name d_type ls od _ hdive hm hx hin2]
    have hfd : first_descent
        ((stat_phase g (child_path curdir.dirpath d_name) d_type ls).events ++
          dir_print cfg (child_path curdir.dirpath d_name) ++
          [Event.dirlist_add_dir (child_path curdir.dirpath d_name) (incr curdir.depth)
            (stat_phase g (child_path curdir.dirpath d_name) d_type ls).st]) =
        some (Event.dirlist_add_dir (child_path curdir.dirpath d_name) (incr curdir.depth)
            (stat_phase g (child_path curdir.dirpath d_name) d_type ls).st) := by
      rw [List.append_assoc, first_descent_skip _ _ hnd, first_descent_skip _ _ hpd]
      rfl
    refine ⟨fun h => absurd h hFf, fun _ => rfl, ?_, ?_, fun _ => rfl, ?_,
      ⟨rfl, rfl, rfl⟩, hdepth⟩
    · constructor
      · intro h
        rw [hfd] at h
        exact Event.noConfusion (Option.some.inj h)
      · intro h; exact absurd h hFf
    · exact ⟨fun _ => hFf, fun _ => hfd⟩
    · intro _ hI
      constructor
      · intro h
        rw [hfd] at h
        exact Event.noConfusion (Option.some.inj h)
      · intro h; exact absurd ⟨hI, Or.inl h⟩ hFf

/-- Witness for C12: in `/r` with link count 3 the subdirectory `a` is
walked inline (threshold 2) and `inlined` becomes 1; in `/r` with link count
4 it is handed to `dirlist_add_dir` at depth 1 and `inlined` stays 0. -/
theorem C12_inline_or_enqueue_witness :
    handle_dirent sys_ok (cfg_plain 1000 ID_UNCHANGED) globals_zero
        (task_start "/r" (stat_dir 1 3 0 0))
        (.mk "a" DT_DIR (.ok (stat_dir 1 2 0 0)) none []) =
      { g := (walk_dir sys_ok (cfg_plain 1000 ID_UNCHANGED)
            (stat_phase globals_zero "/r/a" DT_DIR (.ok (stat_dir 1 2 0 0))).g
            (subdirentry (stat_phase globals_zero "/r/a" DT_DIR (.ok (stat_dir 1 2 0 0))).g
              (task_start "/r" (stat_dir 1 3 0 0)) "/r/a"
              (stat_phase globals_zero "/r/a" DT_DIR (.ok (stat_dir 1 2 0 0))).st)
            (.mk "a" DT_DIR (.ok (stat_dir 1 2 0 0)) none [])).1,
        curdir := { task_start "/r" (stat_dir 1 3 0 0) with
          inlined := incr (task_start "/r" (stat_dir 1 3 0 0)).inlined },
        events := (stat_phase globals_zero "/r/a" DT_DIR (.ok (stat_dir 1 2 0 0))).events ++
          dir_print (cfg_plain 1000 ID_UNCHANGED) "/r/a" ++
          [Event.walk_dir
            (subdirentry (stat_phase globals_zero "/r/a" DT_DIR (.ok (stat_dir 1 2 0 0))).g
              (task_start "/r" (stat_dir 1 3 0 0)) "/r/a"
              (stat_phase globals_zero "/r/a" DT_DIR (.ok (stat_dir 1 2 0 0))).st)] ++
          (walk_dir sys_ok (cfg_plain 1000 ID_UNCHANGED)
            (stat_phase globals_zero "/r/a" DT_DIR (.ok (stat_dir 1 2 0 0))).g
            (subdirentry (stat_phase globals_zero "/r/a" DT_DIR (.ok (stat_dir 1 2 0 0))).g
              (task_start "/r" (stat_dir 1 3 0 0)) "/r/a"
              (stat_phase globals_zero "/r/a" DT_DIR (.ok (stat_dir 1 2 0 0))).st)
            (.mk "a" DT_DIR (.ok (stat_dir 1 2 0 0)) none [])).2 } ∧
    handle_dirent sys_ok (cfg_plain 1000 ID_UNCHANGED) globals_zero
        (task_start "/r" (stat_dir 1 4 0 0))
        (.mk "a" DT_DIR (.ok (stat_dir 1 2 0 0)) none []) =
      { g := (stat_phase globals_zero "/r/a" DT_DIR (.ok (stat_dir 1 2 0 0))).g,
        curdir := task_start "/r" (stat_dir 1 4 0 0),
        events := (stat_phase globals_zero "/r/a" DT_DIR (.ok (stat_dir 1 2 0 0))).events ++
          dir_print (cfg_plain 1000 ID_UNCHANGED) "/r/a" ++
          [Event.dirlist_add_dir "/r/a" (incr (task_start "/r" (stat_dir 1 4 0 0)).depth)
            (stat_phase globals_zero "/r/a" DT_DIR (.ok (stat_dir 1 2 0 0))).st] } ∧
    incr (task_start "/r" (stat_dir 1 4 0 0)).depth =
      (task_start "/r" (stat_dir 1 4 0 0)).depth + 1 :=
  ⟨(C12_inline_or_enqueue sys_ok (cfg_plain 1000 ID_UNCHANGED) globals_zero
      (task_start "/r" (stat_dir 1 3 0 0)) "a" DT_DIR (.ok (stat_dir 1 2 0 0)) none []
      "/r/a" _ _ (by decide) rfl rfl (by decide) (by decide) (by decide)).1 (by decide),
    (C12_inline_or_enqueue sys_ok (cfg_plain 1000 ID_UNCHANGED) globals_zero
      (task_start "/r" (stat_dir 1 4 0 0)) "a" DT_DIR (.ok (stat_dir 1 2 0 0)) none []
      "/r/a" _ _ (by decide) rfl rfl (by decide) (by decide) (by decide)).2.1 (by decide),
    (C12_inline_or_enqueue sys_ok (cfg_plain 1000 ID_UNCHANGED) globals_zero
      (task_start "/r" (stat_dir 1 4 0 0)) "a" DT_DIR (.ok (stat_dir 1 2 0 0)) none []
      "/r/a" _ _ (by decide) rfl rfl (by decide) (by decide) (by decide)).2.2.2.2.2.2.2
      (by decide)⟩

/-- C13 (non-POSIX link counts), evaluated where the code departs from it:
when `simulate_posix_compliance` is already set, the link-count check leaves
the `st_nlink = 1` of the task as it is, and with the threshold 2 all three
subdirectories of `/r` are walked inline; none is handed to
`dirlist_add_dir`. -/
theorem C13_flag_already_set_keeps_nlink :
    nlink_check globals_flag_set (task_start "/r" (stat_dir 1 1 0 0)) =
      (globals_flag_set, task_start "/r" (stat_dir 1 1 0 0)) ∧
    (task_start "/r" (stat_dir 1 1 0 0)).st_nlink = 1 ∧
    ((walk_dir sys_ok (cfg_plain 1000 ID_UNCHANGED) globals_flag_set
        (task_start "/r" (stat_dir 1 1 0 0)) tree_btrfs).2.filter is_descent) =
      [Event.walk_dir
          { dirpath := "/r/skip", depth := 1, inlined := 0, filecnt := 0,
            st_nlink := 4294967295, st_dev := 1, st_uid := 0, st_gid := 0 },
        Event.walk_dir
          { dirpath := "/r/a", depth := 1, inlined := 0, filecnt := 0,
            st_nlink := 4294967295, st_dev := 1, st_uid := 0, st_gid := 0 },
        Event.walk_dir
          { dirpath := "/r/b", depth := 1, inlined := 0, filecnt := 0,
            st_nlink := 4294967295, st_dev := 1, st_uid := 0, st_gid := 0 }] := by
  decide

/-- C14 (task invariant) fails as stated: a task that starts with
`inlined = 0` and link count 2, read when the directory holds three
subdirectories, ends with `inlined = 3` under the threshold 2. -/
theorem C14_counterexample :
    (task_start "/r" (stat_dir 1 2 0 0)).inlined = 0 ∧
      (cfg_plain 1000 ID_UNCHANGED).inline_processing_threshold = 2 ∧
      (walk_entries sys_ok (cfg_plain 1000 ID_UNCHANGED) globals_zero
        (task_start "/r" (stat_dir 1 2 0 0)) tree_stale_nlink.entries).curdir.inlined = 3 := by
  decide

/-- C14 as amended: for every list of entries, every value of the flag and
every number `n` of `handle_dirent` calls made so far on a task that started
with `inlined = 0`: when the `st_nlink` of the task is at least the threshold
plus 2, or at least 2 plus the number of entries that `handle_dirent` takes
for directories (the link count does not understate the subdirectories), or
that number is at most the threshold, `inlined` is at most the threshold.
The same holds from any start at or below the threshold when `st_nlink` is at
least the threshold plus 2; with the threshold 0 `inlined` does not change;
for every `st_nlink`, `inlined` grows by at most one for each entry taken for
a directory, while `st_nlink` stays as it is; and with a link count below the
threshold plus 2, a threshold other than 0 and none of `-x`, `-m`, `-E`,
`inlined` grows by exactly the number of those entries (modulo 2^32), which
is where the bound fails. -/
theorem C14_inlined_bound (sys : Sys) (cfg : Config) (g : Globals) (curdir : Dirlist)
    (ents : List Node) (n : Nat) :
    (curdir.inlined = 0 →
      (cfg.inline_processing_threshold + 2 ≤ curdir.st_nlink ∨
        subdir_count ents + 2 ≤ curdir.st_nlink ∨
        subdir_count ents ≤ cfg.inline_processing_threshold) →
      (walk_entries sys cfg g curdir (ents.take n)).curdir.inlined ≤
        cfg.inline_processing_threshold) ∧
    (cfg.inline_processing_threshold + 2 ≤ curdir.st_nlink →
      curdir.inlined ≤ cfg.inline_processing_threshold →
      (walk_entries sys cfg g curdir (ents.take n)).curdir.inlined ≤
        cfg.inline_processing_threshold) ∧
    (cfg.inline_processing_threshold = 0 →
      (walk_entries sys cfg g curdir (ents.take n)).curdir.inlined = curdir.inlined) ∧
    (walk_entries sys cfg g curdir (ents.take n)).curdir.inlined ≤
      curdir.inlined + subdir_count (ents.take n) ∧
    (walk_entries sys cfg g curdir (ents.take n)).curdir.st_nlink = curdir.st_nlink ∧
    (cfg.xdev = false → cfg.maxdepth = 0 → cfg.excludelist = [] →
      cfg.inline_processing_threshold ≠ 0 →
      curdir.st_nlink < cfg.inline_processing_threshold + 2 →
      (walk_entries sys cfg g curdir (ents.take n)).curdir.inlined % 4294967296 =
        (curdir.inlined + subdir_count (ents.take n)) % 4294967296) := by
  obtain ⟨h1, _, h3, h4⟩ := walk_entries_inlined sys cfg (ents.take n) g curdir
  have h5 := walk_entries_subdirs sys cfg (ents.take n) g curdir
  have h6 := subdir_count_take ents n
  refine ⟨?_, h4, h3, h5, h1, ?_⟩
  · intro h0 hn
    by_cases hI : cfg.inline_processing_threshold + 2 ≤ curdir.st_nlink
    · exact h4 hI (by omega)
    · rcases hn with hn | hn | hn
      · exact absurd hn hI
      · omega
      · omega
  · intro hx hm he hI hn
    exact walk_entries_inlined_exact sys cfg hx hm he hI (ents.take n) g curdir hn

/-- Witness for C14: the one subdirectory of `/r` with link count 3, which
is walked inline under the threshold 2; the three subdirectories of `/r` with
link count 5 and the threshold 2, after two and after three `handle_dirent`
calls, with the flag set and unset; the same with the threshold 0; and the
three subdirectories of `/r` with the link count 2, all walked inline. -/
theorem C14_inlined_bound_witness :
    (walk_entries sys_ok (cfg_plain 1000 ID_UNCHANGED) globals_zero
        (task_start "/r" (stat_dir 1 3 0 0))
        (tree_r_a_f.entries.take 1)).curdir.inlined ≤
      (cfg_plain 1000 ID_UNCHANGED).inline_processing_threshold ∧
    (walk_entries sys_ok (cfg_plain 1000 ID_UNCHANGED) globals_flag_set
        (task_start "/r" (stat_dir 1 5 0 0))
        (tree_three_subdirs.entries.take 2)).curdir.inlined ≤
      (cfg_plain 1000 ID_UNCHANGED).inline_processing_threshold ∧
    (walk_entries sys_ok (cfg_plain 1000 ID_UNCHANGED) globals_zero
        (task_start "/r" (stat_dir 1 5 0 0))
        (tree_three_subdirs.entries.take 3)).curdir.inlined ≤
      (cfg_plain 1000 ID_UNCHANGED).inline_processing_threshold ∧
    (walk_entries sys_ok { cfg_plain 1000 ID_UNCHANGED with inline_processing_threshold := 0 }
        globals_flag_set (task_start "/r" (stat_dir 1 5 0 0))
        (tree_three_subdirs.entries.take 3)).curdir.inlined =
      (task_start "/r" (stat_dir 1 5 0 0)).inlined ∧
    (walk_entries sys_ok (cfg_plain 1000 ID_UNCHANGED) globals_zero
        (task_start "/r" (stat_dir 1 2 0 0))
        (tree_stale_nlink.entries.take 3)).curdir.inlined % 4294967296 =
      ((task_start "/r" (stat_dir 1 2 0 0)).inlined +
        subdir_count (tree_stale_nlink.entries.take 3)) % 4294967296 :=
  ⟨(C14_inlined_bound sys_ok (cfg_plain 1000 ID_UNCHANGED) globals_zero
      (task_start "/r" (stat_dir 1 3 0 0)) tree_r_a_f.entries 1).1 rfl
      (Or.inr (Or.inl (by decide))),
    (C14_inlined_bound sys_ok (cfg_plain 1000 ID_UNCHANGED) globals_flag_set
      (task_start "/r" (stat_dir 1 5 0 0)) tree_three_subdirs.entries 2).1 rfl
      (Or.inl (by decide)),
    (C14_inlined_bound sys_ok (cfg_plain 1000 ID_UNCHANGED) globals_zero
      (task_start "/r" (stat_dir 1 5 0 0)) tree_three_subdirs.entries 3).2.1 (by decide)
      (by decide),
    (C14_inlined_bound sys_ok
      { cfg_plain 1000 ID_UNCHANGED with inline_processing_threshold := 0 }
      globals_flag_set (task_start "/r" (stat_dir 1 5 0 0))
      tree_three_subdirs.entries 3).2.2.1 rfl,
    (C14_inlined_bound sys_ok (cfg_plain 1000 ID_UNCHANGED) globals_zero
      (task_start "/r" (stat_dir 1 2 0 0)) tree_stale_nlink.entries 3).2.2.2.2.2 rfl rfl rfl
      (by decide) (by decide)⟩

/-- C15 (lstat accounting) fails as stated: for the regular file `f` with a
`DT_UNKNOWN` hint `handle_dirent` makes one `lstat` call, `statcount` stays 0
and only `statcount_unexp` becomes 1. -/
theorem C15_counterexample :
    lstat_count (handle_dirent sys_ok (cfg_plain 1000 ID_UNCHANGED) globals_zero
        (task_start "/r" (stat_dir 1 3 0 0))
        (.mk "f" DT_UNKNOWN (.ok (stat_reg 1 0 0)) (some 20) [])).events = 1 ∧
    (handle_dirent sys_ok (cfg_plain 1000 ID_UNCHANGED) globals_zero
        (task_start "/r" (stat_dir 1 3 0 0))
        (.mk "f" DT_UNKNOWN (.ok (stat_reg 1 0 0)) (some 20) [])).g.statcount = 0 ∧
    (handle_dirent sys_ok (cfg_plain 1000 ID_UNCHANGED) globals_zero
        (task_start "/r" (stat_dir 1 3 0 0))
        (.mk "f" DT_UNKNOWN (.ok (stat_reg 1 0 0)) (some 20) [])).g.statcount_unexp = 1 := by
  decide

/-- C15 as amended: `handle_dirent` performs an `lstat` on an entry exactly
when its type hint is `DT_DIR` or `DT_UNKNOWN`; an `lstat` for a `DT_DIR` hint
increments `statcount` by 1 (modulo 2^32) and leaves `statcount_unexp`, an
`lstat` for a `DT_UNKNOWN` hint increments `statcount_unexp` by 1 and leaves
`statcount`; so after one `handle_dirent` call, and after any sequence of
them, the sum `statcount + statcount_unexp` has grown by the number of
`lstat` calls made, modulo 2^32. -/
theorem C15_lstat_accounting (sys : Sys) (cfg : Config) (g : Globals) (curdir : Dirlist)
    (d_name : String) (d_type : Nat) (ls : LstatResult) (od : Option Nat)
    (ents rest : List Node) :
    (d_type = DT_DIR ∨ d_type = DT_UNKNOWN →
      ∃ tail, (handle_dirent sys cfg g curdir (.mk d_name d_type ls od ents)).events =
        Event.lstat (child_path curdir.dirpath d_name) :: tail) ∧
    (d_type ≠ DT_DIR → d_type ≠ DT_UNKNOWN →
      lstat_count (handle_dirent sys cfg g curdir (.mk d_name d_type ls od ents)).events
        = 0) ∧
    (stat_phase g (child_path curdir.dirpath d_name) DT_DIR ls).g =
      { g with statcount := (g.statcount + 1) % 4294967296 } ∧
    (stat_phase g (child_path curdir.dirpath d_name) DT_UNKNOWN ls).g =
      { g with statcount_unexp := (g.statcount_unexp + 1) % 4294967296 } ∧
    (d_type = DT_UNKNOWN →
      d_type_of_mode (st_after_lstat ls).st_mode DT_UNKNOWN ≠ DT_DIR →
      (handle_dirent sys cfg g curdir (.mk d_name d_type ls od ents)).g.statcount =
          g.statcount ∧
        (handle_dirent sys cfg g curdir (.mk d_name d_type ls od ents)).g.statcount_unexp =
          (g.statcount_unexp + 1) % 4294967296 ∧
        lstat_count (handle_dirent sys cfg g curdir (.mk d_name d_type ls od ents)).events
          = 1) ∧
    ((handle_dirent sys cfg g curdir (.mk d_name d_type ls od ents)).g.statcount +
        (handle_dirent sys cfg g curdir (.mk d_name d_type ls od ents)).g.statcount_unexp) %
        4294967296 =
      (g.statcount + g.statcount_unexp +
        lstat_count (handle_dirent sys cfg g curdir (.mk d_name d_type ls od ents)).events) %
        4294967296 ∧
    ((walk_entries sys cfg g curdir rest).g.statcount +
        (walk_entries sys cfg g curdir rest).g.statcount_unexp) % 4294967296 =
      (g.statcount + g.statcount_unexp +
        lstat_count (walk_entries sys cfg g curdir rest).events) % 4294967296 := by
  refine ⟨?_, ?_, ?_, ?_, ?_, ?_, ?_⟩
  · intro ht
    rw [handle_dirent_eq]
    obtain ⟨r1, h1⟩ := handle_dirent_body_starts sys cfg g curdir d_name d_type ls od
      (fun g1 c1 => walk_entries sys cfg g1 c1 ents)
    obtain ⟨r2, h2, _⟩ := stat_phase_head g (child_path curdir.dirpath d_name) d_type ls ht
    rw [h1, h2]
    exact ⟨r2 ++ r1, rfl⟩
  · intro h1 h2
    have hsp := stat_phase_known g (child_path curdir.dirpath d_name) d_type ls h1 h2
    have hdive : dive_into_subdir cfg curdir
        (stat_phase g (child_path curdir.dirpath d_name) d_type ls).d_type
        (stat_phase g (child_path curdir.dirpath d_name) d_type ls).st = false := by
      rw [hsp]
      simp [dive_into_subdir, h1]
    rw [handle_dirent_eq, handle_dirent_body_leaf _ _ _ _ _ _ _ _ _ hdive, hsp]
    simp only [List.nil_append]
    exact (handle_leaf_stat _ _ _ _ _).2.2
  · unfold stat_phase
    rw [if_pos (Or.inl rfl), if_neg (by decide)]
    rfl
  · unfold stat_phase
    rw [if_pos (Or.inr rfl), if_pos rfl]
    rfl
  · intro ht hnd
    subst ht
    have hg : (stat_phase g (child_path curdir.dirpath d_name) DT_UNKNOWN ls) =
        { g := { g with statcount_unexp := incr g.statcount_unexp },
          st := st_after_lstat ls,
          d_type := d_type_of_mode (st_after_lstat ls).st_mode DT_UNKNOWN,
          events := lstat_events (child_path curdir.dirpath d_name) ls } := by
      unfold stat_phase
      rw [if_pos (Or.inr rfl), if_pos rfl]
    have hdive : dive_into_subdir cfg curdir
        (stat_phase g (child_path curdir.dirpath d_name) DT_UNKNOWN ls).d_type
        (stat_phase g (child_path curdir.dirpath d_name) DT_UNKNOWN ls).st = false := by
      rw [hg]
      simp [dive_into_subdir, hnd]
    rw [handle_dirent_eq, handle_dirent_body_leaf _ _ _ _ _ _ _ _ _ hdive, hg]
    obtain ⟨l1, l2, l3⟩ := handle_leaf_stat sys cfg
      { g with statcount_unexp := incr g.statcount_unexp }
      (child_path curdir.dirpath d_name) (st_after_lstat ls)
    simp only [l1, l2, lstat_count_append, l3, lstat_events_count]
    refine ⟨?_, ?_, ?_⟩ <;> first | rfl | trivial
  · rw [handle_dirent_eq]
    exact handle_dirent_body_stat sys cfg g curdir d_name d_type ls od _
      (walk_entries_stat sys cfg ents)
  · exact walk_entries_stat sys cfg rest g curdir

/-- Witness for C15: the subdirectory `a` (hint `DT_DIR`), the regular file
`f` (hint `DT_REG`) and the regular file `u` with a `DT_UNKNOWN` hint. -/
theorem C15_lstat_accounting_witness :
    (∃ tail, (handle_dirent sys_ok (cfg_plain 1000 ID_UNCHANGED) globals_zero
        (task_start "/r" (stat_dir 1 3 0 0))
        (.mk "a" DT_DIR (.ok (stat_dir 1 2 0 0)) none [])).events =
          Event.lstat (child_path "/r" "a") :: tail) ∧
    lstat_count (handle_dirent sys_ok (cfg_plain 1000 ID_UNCHANGED) globals_zero
        (task_start "/r" (stat_dir 1 3 0 0))
        (.mk "f" DT_REG (.ok (stat_reg 1 0 0)) (some 20) [])).events = 0 ∧
    ((handle_dirent sys_ok (cfg_plain 1000 ID_UNCHANGED) globals_zero
        (task_start "/r" (stat_dir 1 3 0 0))
        (.mk "u" DT_UNKNOWN (.ok (stat_reg 1 0 0)) (some 20) [])).g.statcount =
          globals_zero.statcount ∧
      (handle_dirent sys_ok (cfg_plain 1000 ID_UNCHANGED) globals_zero
        (task_start "/r" (stat_dir 1 3 0 0))
        (.mk "u" DT_UNKNOWN (.ok (stat_reg 1 0 0)) (some 20) [])).g.statcount_unexp =
          (globals_zero.statcount_unexp + 1) % 4294967296 ∧
      lstat_count (handle_dirent sys_ok (cfg_plain 1000 ID_UNCHANGED) globals_zero
        (task_start "/r" (stat_dir 1 3 0 0))
        (.mk "u" DT_UNKNOWN (.ok (stat_reg 1 0 0)) (some 20) [])).events = 1) :=
  ⟨(C15_lstat_accounting sys_ok (cfg_plain 1000 ID_UNCHANGED) globals_zero
      (task_start "/r" (stat_dir 1 3 0 0)) "a" DT_DIR (.ok (stat_dir 1 2 0 0)) none [] []).1
      (Or.inl rfl),
    (C15_lstat_accounting sys_ok (cfg_plain 1000 ID_UNCHANGED) globals_zero
      (task_start "/r" (stat_dir 1 3 0 0)) "f" DT_REG (.ok (stat_reg 1 0 0)) (some 20) []
      []).2.1 (by decide) (by decide),
    (C15_lstat_accounting sys_ok (cfg_plain 1000 ID_UNCHANGED) globals_zero
      (task_start "/r" (stat_dir 1 3 0 0)) "u" DT_UNKNOWN (.ok (stat_reg 1 0 0)) (some 20) []
      []).2.2.2.2.1 rfl (by decide)⟩

/-- C16 (failed lstat), evaluated where the code departs from it: the entry
`gone` with a `DT_DIR` hint on which `lstat` fails with `ENOENT` is not
skipped.  `handle_dirent` walks it inline with the link count 7 that the
stack held (the `opendir` then fails); under `-n` in a directory with link
count 9 it prints it and hands it to `dirlist_add_dir`; and with `-x` it
calls `do_chown` on it.  The entry `odd` with a `DT_UNKNOWN` hint gets its
type from the mode that the stack held, here that of a regular file, and
`do_chown` is called on it. -/
theorem C16_failed_lstat_is_not_skipped :
    (handle_dirent sys_ok (cfg_plain 1000 ID_UNCHANGED) globals_zero
        (task_start "/r" (stat_dir 1 3 0 0)) node_gone).events =
      [Event.lstat "/r/gone",
        Event.walk_dir
          { dirpath := "/r/gone", depth := 1, inlined := 0, filecnt := 0, st_nlink := 7,
            st_dev := 0, st_uid := 4294967295, st_gid := 4294967295 },
        Event.perror "/r/gone"] ∧
    (handle_dirent sys_ok { cfg_plain 1000 ID_UNCHANGED with dryrun := true } globals_zero
        (task_start "/r" (stat_dir 1 9 0 0)) node_gone).events =
      [Event.lstat "/r/gone", Event.puts "/r/gone",
        Event.dirlist_add_dir "/r/gone" 1
          { st_dev := 0, st_mode := 0, st_nlink := 7, st_uid := 4294967295,
            st_gid := 4294967295, st_ino := 0 }] ∧
    (handle_dirent sys_ok { cfg_plain 1000 ID_UNCHANGED with xdev := true } globals_zero
        (task_start "/r" (stat_dir 1 3 0 0)) node_gone).events =
      [Event.lstat "/r/gone", Event.lchown "/r/gone" 1000 4294967295] ∧
    (handle_dirent sys_ok (cfg_plain 1000 ID_UNCHANGED) globals_zero
        (task_start "/r" (stat_dir 1 3 0 0)) node_odd).events =
      [Event.lstat "/r/odd", Event.lchown "/r/odd" 1000 4294967295] := by
  decide

/-- C17 (child path): the path that `handle_dirent` builds for the entry `n`
of the directory `p` is `p`, "/" and `n` when `p` is not "/", and "/" and
`n` when `p` is "/"; its length in bytes (and in characters) is at most that
of `p` plus 1 plus that of `n`; and it is the path that `handle_dirent`
passes to `lstat` for an entry with a `DT_DIR` hint. -/
theorem C17_child_path (p n : String) :
    (p ≠ "/" → child_path p n = p ++ "/" ++ n) ∧
    (p = "/" → child_path p n = "/" ++ n) ∧
    (child_path p n).utf8ByteSize ≤ p.utf8ByteSize + 1 + n.utf8ByteSize ∧
    (child_path p n).length ≤ p.length + 1 + n.length ∧
    (∀ (sys : Sys) (cfg : Config) (g : Globals) (curdir : Dirlist) (ls : LstatResult)
        (od : Option Nat) (ents : List Node), curdir.dirpath = p →
      (handle_dirent sys cfg g curdir (.mk n DT_DIR ls od ents)).events.head? =
        some (Event.lstat (if p = "/" then "/" ++ n else p ++ "/" ++ n))) := by
  refine ⟨?_, ?_, ?_, ?_, ?_⟩
  · intro h
    simp only [child_path, if_neg h]
  · intro h
    simp only [child_path, h, if_true]
  · unfold child_path
    split_ifs
    · rw [utf8_size_append]; omega
    · rw [utf8_size_append, utf8_size_append]
      have : ("/" : String).utf8ByteSize = 1 := by decide
      omega
  · unfold child_path
    split_ifs
    · rw [String.length_append]; omega
    · rw [String.length_append, String.length_append]
      have : ("/" : String).length = 1 := by decide
      omega
  · intro sys cfg g curdir ls od ents hp
    have hcp : child_path curdir.dirpath n = if p = "/" then "/" ++ n else p ++ "/" ++ n := by
      rw [hp]
      unfold child_path
      split_ifs with h
      · rw [h]
      · rfl
    rw [← hcp, handle_dirent_eq]
    have hse : ∃ rest, (stat_phase g (child_path curdir.dirpath n) DT_DIR ls).events =
        Event.lstat (child_path curdir.dirpath n) :: rest := by
      unfold stat_phase
      rw [if_pos (Or.inl rfl), if_neg (by decide)]
      rcases lstat_events_cases (child_path curdir.dirpath n) ls with h | h
      · exact ⟨[], h⟩
      · exact ⟨_, h⟩
    obtain ⟨rest, hr⟩ := hse
    unfold handle_dirent_body
    simp only [hr]
    split_ifs <;> simp

/-- Witness for C17: the entry `a` of `/r` and the entry `a` of `/`. -/
theorem C17_child_path_witness :
    child_path "/r" "a" = "/r" ++ "/" ++ "a" ∧ child_path "/" "a" = "/" ++ "a" ∧
      (handle_dirent sys_ok (cfg_plain 1000 ID_UNCHANGED) globals_zero
        (task_start "/" (stat_dir 1 3 0 0)) (.mk "a" DT_DIR (.ok (stat_dir 1 2 0 0)) none
          [])).events.head? =
        some (Event.lstat (if ("/" : String) = "/" then "/" ++ "a" else "/" ++ "/" ++ "a")) :=
  ⟨(C17_child_path "/r" "a").1 (by decide), (C17_child_path "/" "a").2.1 rfl,
    (C17_child_path "/" "a").2.2.2.2 sys_ok (cfg_plain 1000 ID_UNCHANGED) globals_zero
      (task_start "/" (stat_dir 1 3 0 0)) (.ok (stat_dir 1 2 0 0)) none [] rfl⟩

end Chowntree
